import Mathlib

/-!
# Window / shared-memory presentation demos

A shallow embedding of the four demo programs (`main.cpp`, `p1.cpp`, `p3.cpp`,
`xdg_wm.cpp`) and the properties stated about them.

Conventions of the embedding:

* a C `int` is a mathematical integer reduced with `wrap32` after every
  arithmetic operation (two's complement, what the target hardware computes;
  the C standard leaves signed overflow undefined);
* `/` and `%` on `int` truncate toward zero (`Int.tdiv`, `Int.tmod`);
* `checked32` gives the value of an `int` operation as ISO C defines it: the
  mathematical result when it fits, none when it overflows;
* a `uint32_t *` is the function giving the word stored at each signed element
  offset from the pointer;
* calls into the operating system and the display library are recorded in a
  trace, their results are read from an explicit environment record;
* text written to stdout / stderr is not part of the trace.
-/

namespace Renderer

/-! ## Definitions -/

/-! ### Machine integers -/

/-- Reduction of a mathematical integer to a 32-bit two's-complement `int`. -/
def wrap32 (z : Int) : Int := (z + 2147483648) % 4294967296 - 2147483648

/-- Reduction of a mathematical integer to a 64-bit two's-complement `off_t`. -/
def wrap64 (z : Int) : Int :=
  (z + 9223372036854775808) % 18446744073709551616 - 9223372036854775808

/-- Conversion of an integer value to `size_t` (64-bit unsigned). -/
def toSizeT (z : Int) : Int := z % 18446744073709551616

/-- Largest value of `int`. -/
def INT_MAX : Int := 2147483647

/-- Smallest value of `int`. -/
def INT_MIN : Int := -2147483648

/-- The `int` product `a * b`. -/
def imul (a b : Int) : Int := wrap32 (a * b)

/-- The `int` sum `a + b`. -/
def iadd (a b : Int) : Int := wrap32 (a + b)

/-- The `int` quotient `a / b`, truncated toward zero. -/
def idiv (a b : Int) : Int := wrap32 (a.tdiv b)

/-- The `int` remainder `a % b`, with the sign of the dividend. -/
def imod (a b : Int) : Int := a.tmod b

/-! ### Memory and loops -/

/-- The words reachable through a `uint32_t *`, by element offset. -/
abbrev Words := Int → Nat

/-- The assignment `m[i] = v`. -/
def store {α : Type} (m : Int → α) (i : Int) (v : α) : Int → α :=
  fun j => if j = i then v else m j

/-- The loop `for (int k = lo; k < hi; ++k) body(k)`, for a body that does not
assign `k`: the iterations are `lo, lo+1, ..., hi-1`, none when `hi ≤ lo`. -/
def forLoop {σ : Type} (lo hi : Int) (body : Int → σ → σ) (s : σ) : σ :=
  (List.range (hi - lo).toNat).foldl (fun acc (k : Nat) => body (lo + (k : Int)) acc) s

/-! ### `xdg_wm.cpp`: the pixel buffer and `draw` -/

/-- The record `struct shm_pixel_buffer`; pointers are addresses, `0` is null. -/
structure shm_pixel_buffer where
  wl_buffer : Nat
  wl_shm_pool : Nat
  pool_buffer : Nat
  width : Int
  height : Int
  fd : Int

/-- The test `(x + y / 8 * 8) % 16 < 8` of `draw`, in `int` arithmetic. -/
def drawTest (x y : Int) : Bool :=
  decide (imod (iadd x (imul (idiv y 8) 8)) 16 < 8)

/-- The subscript `y * buf->width + x` of `draw`, in `int` arithmetic. -/
def drawIndex (width x y : Int) : Int := iadd (imul y width) x

/-- The colour `draw` stores for pixel `(x, y)`. -/
def drawColour (x y : Int) : Nat :=
  if drawTest x y then 0xFF666666 else 0xFFEEEEEE

/-- An `int` result as ISO C defines it: the mathematical value when it is
representable, undefined (`none`) when it is not. -/
def checked32 (z : Int) : Option Int :=
  if INT_MIN ≤ z ∧ z ≤ INT_MAX then some z else none

/-- The test `(x + y / 8 * 8) % 16 < 8` of `draw` as ISO C defines it: `none`
when `x` or `y` is not an `int` or one of the `int` operations overflows. -/
def drawTestChecked (x y : Int) : Option Bool :=
  (checked32 x).bind fun x =>
  (checked32 y).bind fun y =>
  (checked32 (y.tdiv 8)).bind fun q =>
  (checked32 (q * 8)).bind fun p =>
  (checked32 (x + p)).bind fun sum =>
  some (decide (sum.tmod 16 < 8))

/-- The colour `draw` stores for pixel `(x, y)` as ISO C defines it: `none`
where the test of `draw` has no defined value. -/
def drawColourChecked (x y : Int) : Option Nat :=
  (drawTestChecked x y).map fun test => if test then 0xFF666666 else 0xFFEEEEEE

/-- The function `draw`; `data` is the memory behind `buf->pool_buffer`. -/
def draw (buf : shm_pixel_buffer) (data : Words) : Words :=
  forLoop 0 buf.height (fun y d =>
    forLoop 0 buf.width (fun x d =>
      if drawTest x y then
        store d (drawIndex buf.width x y) 0xFF666666
      else
        store d (drawIndex buf.width x y) 0xFFEEEEEE) d) data

/-- A buffer header of 65536 x 32769 pixels, whose pixel count exceeds `INT_MAX`. -/
def hugeBuffer : shm_pixel_buffer :=
  { wl_buffer := 0, wl_shm_pool := 0, pool_buffer := 0,
    width := 65536, height := 32769, fd := 0 }

/-- The buffer header `main` of `xdg_wm.cpp` draws into: 480 x 360 pixels. -/
def demoBuffer : shm_pixel_buffer :=
  { wl_buffer := 0, wl_shm_pool := 0, pool_buffer := 0,
    width := 480, height := 360, fd := 0 }

/-! ### Calls into the operating system and the display library -/

/-- The library and system calls the Wayland programs make, with the arguments
the properties below talk about; `null_test v` is the comparison
`v == nullptr` of a capability global in `main`, and `exit` is `exit(status)`
or the return from `main`. -/
inductive Call where
  | wl_display_connect
  | wl_display_get_registry
  | wl_registry_add_listener
  | wl_display_dispatch
  | wl_display_roundtrip
  | wl_display_disconnect
  | wl_registry_bind (name : Nat) (interface : String)
  | wl_shm_add_listener (shm : Nat)
  | null_test (global : String)
  | wl_compositor_create_surface (compositor : Nat)
  | wl_shell_get_shell_surface (shell surface : Nat)
  | wl_shell_surface_set_toplevel (shell_surface : Nat)
  | wl_shell_surface_add_listener (shell_surface : Nat)
  | wl_shell_surface_pong (shell_surface : Nat) (serial : Nat)
  | xdg_wm_base_get_xdg_surface (base surface : Nat)
  | xdg_surface_get_toplevel (xdg_surface : Nat)
  | xdg_surface_add_listener (xdg_surface : Nat)
  | xdg_surface_ack_configure (xdg_surface : Nat) (serial : Nat)
  | wl_surface_frame (surface : Nat)
  | wl_callback_add_listener (callback : Nat)
  | wl_callback_destroy (callback : Nat)
  | wl_surface_damage (surface : Nat) (x y width height : Int)
  | wl_surface_attach (surface buffer : Nat) (x y : Int)
  | wl_surface_commit (surface : Nat)
  | wl_shm_create_pool (shm : Nat) (fd : Int) (size : Int)
  | wl_shm_pool_create_buffer (pool : Nat) (offset width height stride : Int)
  | wl_shm_pool_destroy (pool : Nat)
  | getenv (key : String)
  | malloc
  | free
  | mkostemp
  | unlink
  | getpid
  | clock_gettime
  | asprintf
  | shm_open
  | shm_unlink
  | ftruncate (fd : Int) (length : Int)
  | close (fd : Int)
  | mmap (length : Int) (fd : Int)
  | exit (status : Int)
  deriving DecidableEq, Repr

/-- A registry announcement: the numeric name of a global and its interface. -/
structure Global where
  name : Nat
  interface : String
  deriving DecidableEq, Repr

/-- The outcome of running a piece of a program from a state: it returned a
value, or the process terminated with a status. -/
inductive Run (σ α : Type) where
  | ret (a : α) (s : σ)
  | exit (status : Int) (s : σ)

/-- The state in which a run ended or returned. -/
def Run.state {σ α : Type} : Run σ α → σ
  | .ret _ s => s
  | .exit _ s => s

/-- The exit status of a run that terminated the process. -/
def Run.status {σ α : Type} : Run σ α → Option Int
  | .ret _ _ => none
  | .exit status _ => some status

/-! ### `p3.cpp`: the animated shared-memory flow -/

/-- The constant `WIDTH` of `p3.cpp`. -/
def WIDTH : Int := 480

/-- The constant `HEIGHT` of `p3.cpp`. -/
def HEIGHT : Int := 360

/-- The events a `wl_display_dispatch` call of the main loop of `p3.cpp` can
deliver to a listener installed by the program. -/
inductive P3Event where
  | frame_done
  | ping (serial : Nat)
  | configure
  | popup_done
  | format
  deriving DecidableEq, Repr

/-- The results the environment gives to the calls of `p3.cpp`; a pointer
result `0` is null, `mmap = none` is `MAP_FAILED`. -/
structure P3Env where
  display : Nat
  dispatchGlobals : List Global
  roundtripGlobals : List Global
  bind : Nat → Nat
  surface : Nat
  shell_surface : Nat
  frame : Nat → Nat
  xdg_runtime_dir : Option String
  malloc : Nat
  mkostemp : Int
  ftruncate : Int
  mmap : Option Nat
  pool : Nat
  buffer : Nat
  loop : List (List P3Event)

/-- The global variables of `p3.cpp`, the memory behind `shm_data`, and the
calls made so far. -/
structure P3State where
  display : Nat
  compositor : Nat
  surface : Nat
  shell : Nat
  shell_surface : Nat
  shm : Nat
  buffer : Nat
  frame_callback : Nat
  shm_data : Words
  pixel_value : Nat
  trace : List Call

/-- Appends a call to the trace. -/
def P3State.call (s : P3State) (c : Call) : P3State :=
  { s with trace := s.trace ++ [c] }

/-- The state at program start: every global is null, `pixel_value` is `0`. -/
def p3_init (mem : Words) : P3State :=
  { display := 0, compositor := 0, surface := 0, shell := 0, shell_surface := 0,
    shm := 0, buffer := 0, frame_callback := 0, shm_data := mem, pixel_value := 0,
    trace := [] }

/-- The function `global_registry_handler` of `p3.cpp`. -/
def global_registry_handler (env : P3Env) (s : P3State) (g : Global) : P3State :=
  if g.interface = "wl_compositor" then
    { s.call (.wl_registry_bind g.name "wl_compositor") with compositor := env.bind g.name }
  else if g.interface = "wl_shell" then
    { s.call (.wl_registry_bind g.name "wl_shell") with shell := env.bind g.name }
  else if g.interface = "wl_shm" then
    ({ s.call (.wl_registry_bind g.name "wl_shm") with shm := env.bind g.name }).call
      (.wl_shm_add_listener (env.bind g.name))
  else
    s

/-- The function `create_tmpfile_cloexec`. -/
def create_tmpfile_cloexec (env : P3Env) (s : P3State) : Int × P3State :=
  let fd := env.mkostemp
  let s := s.call .mkostemp
  if fd ≥ 0 then (fd, s.call .unlink) else (fd, s)

/-- The function `os_create_anonymous_file`; `size` is its `off_t` argument. -/
def os_create_anonymous_file (env : P3Env) (size : Int) (s : P3State) : Int × P3State :=
  let s := s.call (.getenv "XDG_RUNTIME_DIR")
  match env.xdg_runtime_dir with
  | none => (-1, s)
  | some _ =>
    let s := s.call .malloc
    if env.malloc = 0 then (-1, s) else
    let (fd, s) := create_tmpfile_cloexec env s
    let s := s.call .free
    if fd < 0 then (-1, s) else
    let s := s.call (.ftruncate fd size)
    if env.ftruncate < 0 then (-1, s.call (.close fd)) else
    (fd, s)

/-- The function `create_buffer` of `p3.cpp`; it returns the buffer pointer. -/
def create_buffer (env : P3Env) (s : P3State) : Run P3State Nat :=
  let stride := imul WIDTH 4
  let size := imul stride HEIGHT
  let (fd, s) := os_create_anonymous_file env size s
  if fd < 0 then .exit 1 (s.call (.exit 1)) else
  let s := s.call (.mmap (toSizeT size) fd)
  match env.mmap with
  | none => .exit 1 ((s.call (.close fd)).call (.exit 1))
  | some _ =>
    let s := s.call (.wl_shm_create_pool s.shm fd size)
    let s := s.call (.wl_shm_pool_create_buffer env.pool 0 WIDTH HEIGHT stride)
    let s := s.call (.wl_shm_pool_destroy env.pool)
    .ret env.buffer s

/-- The function `paint`: fill `WIDTH * HEIGHT` words with `pixel_value`, then
advance `pixel_value` (a `uint32_t`). -/
def paint (s : P3State) : P3State :=
  let filled := forLoop 0 (imul WIDTH HEIGHT) (fun n d => store d n s.pixel_value) s.shm_data
  let next := (s.pixel_value + 0x10101) % 4294967296
  { s with shm_data := filled, pixel_value := if next > 0xffffff then 0x0 else next }

/-- The function `create_window`. -/
def create_window (env : P3Env) (s : P3State) : Run P3State Unit :=
  match create_buffer env s with
  | .exit status s => .exit status s
  | .ret buf s =>
    let s := { s with buffer := buf }
    let s := s.call (.wl_surface_attach s.surface s.buffer 0 0)
    let s := s.call (.wl_surface_commit s.surface)
    .ret () s

/-- The function `redraw`; the new frame callback is the one the environment
returns for the current position in the trace. -/
def redraw (env : P3Env) (s : P3State) : P3State :=
  let s := s.call (.wl_callback_destroy s.frame_callback)
  let s := s.call (.wl_surface_damage s.surface 0 0 WIDTH HEIGHT)
  let s := paint s
  let s := { s.call (.wl_surface_frame s.surface) with frame_callback := env.frame s.trace.length }
  let s := s.call (.wl_surface_attach s.surface s.buffer 0 0)
  let s := s.call (.wl_callback_add_listener s.frame_callback)
  let s := s.call (.wl_surface_commit s.surface)
  s

/-- The listener an event of the main loop of `p3.cpp` is delivered to:
`redraw` for a frame callback, `handle_ping` for a ping; the other handlers
have an empty body or only print. -/
def p3_deliver (env : P3Env) (s : P3State) : P3Event → P3State
  | .frame_done => redraw env s
  | .ping serial => s.call (.wl_shell_surface_pong s.shell_surface serial)
  | .configure => s
  | .popup_done => s
  | .format => s

/-- The loop `while (wl_display_dispatch(display) != -1);`: one dispatch per
entry of `env.loop`, delivering its events, then the dispatch that returns -1. -/
def p3_loop (env : P3Env) (s : P3State) : P3State :=
  (env.loop.foldl (fun s evs => evs.foldl (p3_deliver env) (s.call .wl_display_dispatch)) s).call
    .wl_display_dispatch

/-- The end of `main` of `p3.cpp`: `create_window`, the first `redraw`, the main
loop, the disconnect and `exit(0)`. -/
def p3_present (env : P3Env) (s : P3State) : Run P3State Unit :=
  match create_window env s with
  | .exit status s => .exit status s
  | .ret _ s =>
    let s := redraw env s
    let s := p3_loop env s
    let s := s.call .wl_display_disconnect
    .exit 0 (s.call (.exit 0))

/-- The part of `main` of `p3.cpp` after the handshake: capability tests, object
creation, then `p3_present`. -/
def p3_after_handshake (env : P3Env) (s : P3State) : Run P3State Unit :=
  let s := s.call (.null_test "compositor")
  if s.compositor = 0 then .exit 1 (s.call (.exit 1)) else
  let s : P3State :=
    { s.call (.wl_compositor_create_surface s.compositor) with surface := env.surface }
  if s.surface = 0 then .exit 1 (s.call (.exit 1)) else
  let s := s.call (.null_test "shell")
  if s.shell = 0 then .exit 1 (s.call (.exit 1)) else
  let s : P3State :=
    { s.call (.wl_shell_get_shell_surface s.shell s.surface) with
      shell_surface := env.shell_surface }
  if s.shell_surface = 0 then .exit 1 (s.call (.exit 1)) else
  let s := s.call (.wl_shell_surface_set_toplevel s.shell_surface)
  let s := s.call (.wl_shell_surface_add_listener s.shell_surface)
  let s : P3State :=
    { s.call (.wl_surface_frame s.surface) with frame_callback := env.frame s.trace.length }
  let s := s.call (.wl_callback_add_listener s.frame_callback)
  p3_present env s

/-- The state of `p3.cpp` when the handshake (dispatch, then round-trip) is
over; only meaningful when the connection succeeded. -/
def p3_handshake (env : P3Env) (s : P3State) : P3State :=
  let s := s.call .wl_display_get_registry
  let s := s.call .wl_registry_add_listener
  let s := s.call .wl_display_dispatch
  let s := env.dispatchGlobals.foldl (global_registry_handler env) s
  let s := s.call .wl_display_roundtrip
  let s := env.roundtripGlobals.foldl (global_registry_handler env) s
  s

/-- The state of `p3.cpp` after `display = wl_display_connect(nullptr)`. -/
def p3_connected (env : P3Env) (mem : Words) : P3State :=
  { (p3_init mem).call .wl_display_connect with display := env.display }

/-- The function `main` of `p3.cpp`, started with `mem` behind the future
mapping. -/
def p3_main (env : P3Env) (mem : Words) : Run P3State Unit :=
  let s := p3_connected env mem
  if s.display = 0 then .exit 1 (s.call (.exit 1)) else
  p3_after_handshake env (p3_handshake env s)

/-- An environment in which every call of `p3.cpp` succeeds and no event
arrives in the main loop. -/
def demoP3Env : P3Env :=
  { display := 1,
    dispatchGlobals := [⟨1, "wl_compositor"⟩, ⟨2, "wl_shm"⟩, ⟨3, "wl_shell"⟩],
    roundtripGlobals := [],
    bind := fun name => name + 10,
    surface := 20, shell_surface := 21, frame := fun n => n + 100,
    xdg_runtime_dir := some "/run/user/1000", malloc := 30, mkostemp := 3,
    ftruncate := 0, mmap := some 40, pool := 50, buffer := 60, loop := [] }

/-! ### `xdg_wm.cpp`: the xdg-shell shared-memory flow -/

/-- The events a `wl_display_dispatch` call of the main loop of `xdg_wm.cpp`
can deliver to a listener installed by the program. -/
inductive XdgEvent where
  | configure (serial : Nat)
  deriving DecidableEq, Repr

/-- The results the environment gives to the calls of `xdg_wm.cpp`; a pointer
result `0` is null, `mmap = none` is `MAP_FAILED`. -/
structure XdgEnv where
  display : Nat
  roundtripGlobals : List Global
  dispatchGlobals : List Global
  bind : Nat → Nat
  surface : Nat
  xdg_surface : Nat
  xdg_toplevel : Nat
  asprintf : Int
  shm_open : Int
  ftruncate : Int
  mmap : Option Nat
  pool : Nat
  wl_buffer : Nat
  loop : List (List XdgEvent)

/-- The global variables of `xdg_wm.cpp`, the memory behind the mapping, and
the calls made so far. -/
structure XdgState where
  wl_compositor : Nat
  xdg_wm_base : Nat
  wl_shm : Nat
  data : Words
  trace : List Call

/-- Appends a call to the trace. -/
def XdgState.call (s : XdgState) (c : Call) : XdgState :=
  { s with trace := s.trace ++ [c] }

/-- The state at program start: every global is null. -/
def xdg_init (mem : Words) : XdgState :=
  { wl_compositor := 0, xdg_wm_base := 0, wl_shm := 0, data := mem, trace := [] }

/-- The function `open_shm_file`; `size` is its `size_t` argument, converted to
`off_t` for `ftruncate`. When `ftruncate` fails the descriptor is closed and
control falls through to `cleanup`, which returns `fd`. -/
def open_shm_file (env : XdgEnv) (size : Int) (s : XdgState) : Int × XdgState :=
  let s := ((s.call .getpid).call .clock_gettime).call .asprintf
  if env.asprintf = -1 then (-1, s) else
  let fd := env.shm_open
  let s := s.call .shm_open
  let s :=
    if fd < 0 then s
    else
      let s := s.call (.ftruncate fd (wrap64 size))
      if env.ftruncate < 0 then s.call (.close fd) else s
  let s := s.call .shm_unlink
  let s := s.call .free
  (fd, s)

/-- The function `alloc_shm_pixel_buffer`; the result is `none` when it returns
`false` (then `*out_buffer` is not assigned). -/
def alloc_shm_pixel_buffer (env : XdgEnv) (width height : Int) (s : XdgState) :
    Option shm_pixel_buffer × XdgState :=
  let bytes_per_pixel : Int := 4
  let size := toSizeT (imul (imul width height) bytes_per_pixel)
  let (fd, s) := open_shm_file env size s
  if fd < 0 then (none, s) else
  let s := s.call (.mmap size fd)
  match env.mmap with
  | none => (none, s.call (.close fd))
  | some pool_buffer =>
    let s := s.call (.wl_shm_create_pool s.wl_shm fd (wrap32 size))
    if env.pool = 0 then (none, s.call (.close fd)) else
    let s := s.call (.wl_shm_pool_create_buffer env.pool 0 width height
      (imul width bytes_per_pixel))
    (some { wl_buffer := env.wl_buffer, wl_shm_pool := env.pool, pool_buffer := pool_buffer,
            width := width, height := height, fd := fd },
     s.call (.close fd))

/-- The function `handle_notify_global` of `xdg_wm.cpp`. -/
def handle_notify_global (env : XdgEnv) (s : XdgState) (g : Global) : XdgState :=
  if g.interface = "wl_compositor" then
    { s.call (.wl_registry_bind g.name "wl_compositor") with wl_compositor := env.bind g.name }
  else if g.interface = "xdg_wm_base" then
    { s.call (.wl_registry_bind g.name "xdg_wm_base") with xdg_wm_base := env.bind g.name }
  else if g.interface = "wl_shm" then
    { s.call (.wl_registry_bind g.name "wl_shm") with wl_shm := env.bind g.name }
  else
    s

/-- The listener an event of the main loop of `xdg_wm.cpp` is delivered to:
`handle_configure`. -/
def xdg_deliver (env : XdgEnv) (s : XdgState) : XdgEvent → XdgState
  | .configure serial => s.call (.xdg_surface_ack_configure env.xdg_surface serial)

/-- The loop `while (wl_display_dispatch(display) != -1);` of `xdg_wm.cpp`. -/
def xdg_loop (env : XdgEnv) (s : XdgState) : XdgState :=
  (env.loop.foldl (fun s evs => evs.foldl (xdg_deliver env) (s.call .wl_display_dispatch)) s).call
    .wl_display_dispatch

/-- The handshake of `xdg_wm.cpp`: the round-trip comes first, the dispatch
second. -/
def xdg_handshake (env : XdgEnv) (s : XdgState) : XdgState :=
  let s := s.call .wl_display_get_registry
  let s := s.call .wl_registry_add_listener
  let s := s.call .wl_display_roundtrip
  let s := env.roundtripGlobals.foldl (handle_notify_global env) s
  let s := s.call .wl_display_dispatch
  let s := env.dispatchGlobals.foldl (handle_notify_global env) s
  s

/-- The end of `main` of `xdg_wm.cpp`: buffer allocation, `draw`, attach and
commit, the main loop, the disconnect and `return 0`. -/
def xdg_present (env : XdgEnv) (s : XdgState) : Run XdgState Unit :=
  let width : Int := 480
  let height : Int := 360
  match alloc_shm_pixel_buffer env width height s with
  | (none, s) => .exit 1 (s.call (.exit 1))
  | (some buf, s) =>
    let s := { s with data := draw buf s.data }
    let s := s.call (.wl_surface_attach env.surface buf.wl_buffer 0 0)
    let s := s.call (.wl_surface_commit env.surface)
    let s := xdg_loop env s
    let s := s.call .wl_display_disconnect
    .exit 0 (s.call (.exit 0))

/-- The part of `main` of `xdg_wm.cpp` after the handshake. No capability is
compared with `nullptr`; only the results of the creation calls are. -/
def xdg_after_handshake (env : XdgEnv) (s : XdgState) : Run XdgState Unit :=
  let s := s.call (.wl_compositor_create_surface s.wl_compositor)
  if env.surface = 0 then .exit 1 (s.call (.exit 1)) else
  let s := s.call (.xdg_wm_base_get_xdg_surface s.xdg_wm_base env.surface)
  if env.xdg_surface = 0 then .exit 1 (s.call (.exit 1)) else
  let s := s.call (.xdg_surface_get_toplevel env.xdg_surface)
  if env.xdg_toplevel = 0 then .exit 1 (s.call (.exit 1)) else
  let s := s.call (.xdg_surface_add_listener env.xdg_surface)
  xdg_present env s

/-- The state of `xdg_wm.cpp` after `wl_display_connect(nullptr)`. -/
def xdg_connected (mem : Words) : XdgState :=
  (xdg_init mem).call .wl_display_connect

/-- The function `main` of `xdg_wm.cpp`. -/
def xdg_main (env : XdgEnv) (mem : Words) : Run XdgState Unit :=
  let s := xdg_connected mem
  if env.display = 0 then .exit 1 (s.call (.exit 1)) else
  xdg_after_handshake env (xdg_handshake env s)

/-- An environment in which every call of `xdg_wm.cpp` succeeds. -/
def demoXdgEnv : XdgEnv :=
  { display := 1,
    roundtripGlobals := [⟨1, "wl_compositor"⟩, ⟨2, "wl_shm"⟩, ⟨3, "xdg_wm_base"⟩],
    dispatchGlobals := [],
    bind := fun name => name + 10,
    surface := 20, xdg_surface := 21, xdg_toplevel := 22,
    asprintf := 12, shm_open := 3, ftruncate := 0, mmap := some 40,
    pool := 50, wl_buffer := 60, loop := [] }

/-- The environment of `demoXdgEnv`, except that `ftruncate` fails. -/
def truncateFailsEnv : XdgEnv := { demoXdgEnv with ftruncate := -1 }

/-! ### `p1.cpp`: the registry probe -/

/-- The results the environment gives to the calls of `p1.cpp`. -/
structure P1Env where
  display : Nat
  dispatchGlobals : List Global
  roundtripGlobals : List Global
  bind : Nat → Nat

/-- The global `compositor` of `p1.cpp` and the calls made so far. -/
structure P1State where
  compositor : Nat
  trace : List Call

/-- Appends a call to the trace. -/
def P1State.call (s : P1State) (c : Call) : P1State :=
  { s with trace := s.trace ++ [c] }

/-- The function `global_registry_handler` of `p1.cpp`. -/
def p1_global_registry_handler (env : P1Env) (s : P1State) (g : Global) : P1State :=
  if g.interface = "wl_compositor" then
    { s.call (.wl_registry_bind g.name "wl_compositor") with compositor := env.bind g.name }
  else
    s

/-- The handshake of `p1.cpp`: dispatch, then round-trip. -/
def p1_handshake (env : P1Env) (s : P1State) : P1State :=
  let s := s.call .wl_display_get_registry
  let s := s.call .wl_registry_add_listener
  let s := s.call .wl_display_dispatch
  let s := env.dispatchGlobals.foldl (p1_global_registry_handler env) s
  let s := s.call .wl_display_roundtrip
  let s := env.roundtripGlobals.foldl (p1_global_registry_handler env) s
  s

/-- The state of `p1.cpp` after `wl_display_connect(nullptr)`. -/
def p1_connected : P1State :=
  ({ compositor := 0, trace := [] } : P1State).call .wl_display_connect

/-- An environment of `p1.cpp` in which the compositor is announced. -/
def demoP1Env : P1Env :=
  { display := 1, dispatchGlobals := [⟨1, "wl_compositor"⟩, ⟨2, "wl_shm"⟩],
    roundtripGlobals := [], bind := fun name => name + 10 }

/-- The function `main` of `p1.cpp`. -/
def p1_main (env : P1Env) : Run P1State Unit :=
  let s := p1_connected
  if env.display = 0 then .exit 1 (s.call (.exit 1)) else
  let s := p1_handshake env s
  let s := s.call (.null_test "compositor")
  if s.compositor = 0 then .exit 1 (s.call (.exit 1)) else
  let s := s.call .wl_display_disconnect
  .exit 0 (s.call (.exit 0))

/-- The size and stride constraint on one call: a truncation, a mapping and a
pool creation carry `size`, a buffer creation carries `stride`. -/
def carriesSizes (size stride : Int) : Call → Prop
  | .ftruncate _ length => length = size
  | .mmap length _ => length = size
  | .wl_shm_create_pool _ _ sz => sz = size
  | .wl_shm_pool_create_buffer _ _ _ _ st => st = stride
  | _ => True

/-- The environment of `demoP3Env`, except that only the compositor is
announced. -/
def compositorOnlyEnv : P3Env :=
  { demoP3Env with dispatchGlobals := [⟨1, "wl_compositor"⟩] }

/-- The environment of `demoXdgEnv`, except that no global is announced. -/
def noGlobalsEnv : XdgEnv := { demoXdgEnv with roundtripGlobals := [] }

/-- The environment of `demoXdgEnv`, except that no `xdg_wm_base` is announced. -/
def noBaseEnv : XdgEnv :=
  { demoXdgEnv with roundtripGlobals := [⟨1, "wl_compositor"⟩, ⟨2, "wl_shm"⟩] }

/-- The environment of `demoP3Env`, except that no `wl_shm` is announced. -/
def noShmEnv : P3Env :=
  { demoP3Env with dispatchGlobals := [⟨1, "wl_compositor"⟩, ⟨3, "wl_shell"⟩] }

/-! ### Classification of calls -/

/-- The calls a registry handler makes: binding a global, and installing the
listener on the bound `wl_shm`. -/
def Call.isBinding : Call → Bool
  | .wl_registry_bind _ _ => true
  | .wl_shm_add_listener _ => true
  | _ => false

/-- The surface-creation and buffer-creation calls. -/
def Call.isCreation : Call → Bool
  | .wl_compositor_create_surface _ => true
  | .wl_shell_get_shell_surface _ _ => true
  | .xdg_wm_base_get_xdg_surface _ _ => true
  | .wl_shm_create_pool _ _ _ => true
  | .wl_shm_pool_create_buffer _ _ _ _ _ => true
  | _ => false

/-- The steps that depend on the bound capabilities: a test of a capability
global against null, and the creation calls. -/
def Call.isDependent : Call → Bool
  | .null_test _ => true
  | c => c.isCreation

/-- The steps the ordering rule of the handshake talks about: the dispatch,
the round-trip and the dependent steps, in the order they occur. -/
def handshakeSkeleton (t : List Call) : List Call :=
  t.filter (fun c => c = .wl_display_dispatch || c = .wl_display_roundtrip || c.isDependent)

/-! ### `main.cpp`: the bitmap window flow -/

/-- The constant `INITIAL_WIDTH`. -/
def INITIAL_WIDTH : Int := 800

/-- The constant `INITIAL_HEIGHT`. -/
def INITIAL_HEIGHT : Int := 600

/-- The framebuffer behind `fb`, by element offset; `none` is a word of the
`new uint32_t[...]` array that has not been assigned (indeterminate value). -/
abbrev Framebuffer := Int → Option Nat

/-- The array `new uint32_t[INITIAL_WIDTH * INITIAL_HEIGHT]`: no word assigned. -/
def freshFramebuffer : Framebuffer := fun _ => none

/-- The two fill loops at the start of `main`. -/
def main_fill (fb : Framebuffer) : Framebuffer :=
  let fb := forLoop 10 100 (fun y fb =>
    forLoop 10 100 (fun x fb =>
      store fb (iadd (imul y INITIAL_WIDTH) x) (some 0xFF0000FF)) fb) fb
  forLoop 150 200 (fun y fb =>
    forLoop 150 200 (fun x fb =>
      store fb (iadd (imul y INITIAL_WIDTH) x) (some 0x0000ffFF)) fb) fb

/-- The window messages `main.cpp` distinguishes; `other` is any other code. -/
inductive Msg where
  | WM_QUIT
  | WM_CLOSE
  | WM_DESTROY
  | WM_PAINT
  | other (code : Nat)
  deriving DecidableEq, Repr

/-- The platform calls of `main.cpp`; `StretchDIBits src` records the pixel
source the call is given. -/
inductive WinCall where
  | GetModuleHandle
  | RegisterClass
  | CreateWindowEx
  | GetDC
  | PeekMessage
  | TranslateMessage (m : Msg)
  | DispatchMessage (m : Msg)
  | DestroyWindow
  | PostQuitMessage (code : Int)
  | BeginPaint
  | EndPaint
  | DefWindowProc (m : Msg)
  | StretchDIBits (src : Framebuffer)

/-- Whether a call is a blit. -/
def WinCall.isBlit : WinCall → Bool
  | .StretchDIBits _ => true
  | _ => false

/-- The pixel source of a blit. -/
def WinCall.source : WinCall → Option Framebuffer
  | .StretchDIBits src => some src
  | _ => none

/-- The framebuffer, the pending message queue of the thread (oldest first) and
the calls made so far. -/
structure WinState where
  fb : Framebuffer
  queue : List Msg
  trace : List WinCall

/-- Appends a call to the trace. -/
def WinState.call (s : WinState) (c : WinCall) : WinState :=
  { s with trace := s.trace ++ [c] }

/-- The function `WindowProc`. `PostQuitMessage` puts `WM_QUIT` at the end of
the queue; `DestroyWindow` sends `WM_DESTROY` to the window procedure before it
returns, which runs the `WM_DESTROY` case. -/
def WindowProc (s : WinState) : Msg → WinState
  | .WM_CLOSE =>
    let s := s.call .DestroyWindow
    let s := s.call (.PostQuitMessage 0)
    { s with queue := s.queue ++ [.WM_QUIT] }
  | .WM_DESTROY =>
    let s := s.call (.PostQuitMessage 0)
    { s with queue := s.queue ++ [.WM_QUIT] }
  | .WM_PAINT =>
    let s := s.call .BeginPaint
    let s := s.call (.StretchDIBits s.fb)
    s.call .EndPaint
  | m => s.call (.DefWindowProc m)

/-- The outcome of one pass through the body of `for (;;)`. -/
inductive LoopStep where
  | next (s : WinState)
  | stop (s : WinState)

/-- The state a pass ended in. -/
def LoopStep.state : LoopStep → WinState
  | .next s => s
  | .stop s => s

/-- One pass through the body of the `for (;;)` loop of `main`:
`PeekMessage(..., PM_REMOVE)` takes the oldest pending message if there is
one; `WM_QUIT` breaks; any other message is translated and dispatched; then the
blit. -/
def loopBody (s : WinState) : LoopStep :=
  let s := s.call .PeekMessage
  match s.queue with
  | [] => .next (s.call (.StretchDIBits s.fb))
  | msg :: rest =>
    let s := { s with queue := rest }
    if msg = .WM_QUIT then .stop s else
    let s := s.call (.TranslateMessage msg)
    let s := WindowProc (s.call (.DispatchMessage msg)) msg
    .next (s.call (.StretchDIBits s.fb))

/-- The `for (;;)` loop, for as many passes as `arrivals` has entries: before
each pass the messages of the entry are posted to the queue. The result is
`stop` when `WM_QUIT` was retrieved, `next` when the passes ran out first. -/
def messageLoop : List (List Msg) → WinState → LoopStep
  | [], s => .next s
  | arrived :: later, s =>
    match loopBody { s with queue := s.queue ++ arrived } with
    | .stop s => .stop s
    | .next s => messageLoop later s

/-- The results the environment gives to `main.cpp`: whether the class
registration succeeds, the window handle (`0` is null), and the messages posted
before each pass of the loop. -/
structure WinEnv where
  registered : Bool
  hwnd : Nat
  arrivals : List (List Msg)

/-- The function `main` of `main.cpp`, started with the array contents `fb0`:
the final state, and the return status (`none` while the loop is still
running when the passes run out). -/
def win_main (env : WinEnv) (fb0 : Framebuffer) : WinState × Option Int :=
  let s : WinState := { fb := main_fill fb0, queue := [], trace := [] }
  let s := s.call .GetModuleHandle
  let s := s.call .RegisterClass
  if !env.registered then (s, some 1) else
  let s := s.call .CreateWindowEx
  if env.hwnd = 0 then (s, some 1) else
  let s := s.call .GetDC
  match messageLoop env.arrivals s with
  | .stop s => (s, some 0)
  | .next s => (s, none)

/-- An environment of `main.cpp`: three passes, with two messages pending in
the first. -/
def demoWinEnv : WinEnv :=
  { registered := true, hwnd := 1,
    arrivals := [[.WM_PAINT, .other 512], [], [.WM_CLOSE]] }

/-- Every blit recorded in `s` was given the framebuffer `F`, and `F` is still
the framebuffer of `s`. -/
def BlitsShow (F : Framebuffer) (s : WinState) : Prop :=
  s.fb = F ∧ ∀ c ∈ s.trace, ∀ src, c = .StretchDIBits src → src = F

/-- A state of the loop of `main.cpp` with two messages pending. -/
def twoPending : WinState :=
  { fb := main_fill freshFramebuffer, queue := [.WM_PAINT, .other 512], trace := [] }

/-! ## Theorems -/

/-! ### Machine integers -/

theorem wrap32_of_fits (z : Int) (h0 : -2147483648 ≤ z) (h1 : z ≤ 2147483647) :
    wrap32 z = z := by
  unfold wrap32
  omega

theorem wrap32_range (z : Int) : -2147483648 ≤ wrap32 z ∧ wrap32 z ≤ 2147483647 := by
  unfold wrap32
  omega

/-! ### Loops that store -/

theorem foldl_point_keep {α β : Type} (i : Int) (v : α)
    (step : β → (Int → α) → (Int → α)) :
    ∀ (l : List β) (m : Int → α),
      (∀ b ∈ l, ∀ m', step b m' i = v ∨ step b m' i = m' i) →
      m i = v → l.foldl (fun acc b => step b acc) m i = v := by
  intro l
  induction l with
  | nil => intro m _ hm; simpa using hm
  | cons b t ih =>
    intro m hstep hm
    simp only [List.foldl_cons]
    apply ih
    · intro c hc m'
      exact hstep c (List.mem_cons_of_mem _ hc) m'
    · rcases hstep b (List.mem_cons_self _ _) m with h | h
      · exact h
      · rw [h]; exact hm

theorem foldl_point_hit {α β : Type} (i : Int) (v : α)
    (step : β → (Int → α) → (Int → α)) (hit : β → Prop) :
    ∀ (l : List β) (m : Int → α),
      (∀ b ∈ l, ∀ m', (hit b → step b m' i = v) ∧ (¬ hit b → step b m' i = m' i)) →
      (∃ b ∈ l, hit b) → l.foldl (fun acc b => step b acc) m i = v := by
  intro l
  induction l with
  | nil => intro m _ h; obtain ⟨b, hb, _⟩ := h; cases hb
  | cons b t ih =>
    intro m hstep hex
    have hweak : ∀ c ∈ t, ∀ m', step c m' i = v ∨ step c m' i = m' i := by
      intro c hc m'
      by_cases hh : hit c
      · exact Or.inl ((hstep c (List.mem_cons_of_mem _ hc) m').1 hh)
      · exact Or.inr ((hstep c (List.mem_cons_of_mem _ hc) m').2 hh)
    simp only [List.foldl_cons]
    by_cases hb : hit b
    · exact foldl_point_keep i v step t _ hweak ((hstep b (List.mem_cons_self _ _) m).1 hb)
    · apply ih
      · intro c hc m'
        exact hstep c (List.mem_cons_of_mem _ hc) m'
      · obtain ⟨c, hc, hhc⟩ := hex
        rcases List.mem_cons.1 hc with rfl | hc'
        · exact absurd hhc hb
        · exact ⟨c, hc', hhc⟩

theorem foldl_point_miss {α β : Type} (i : Int)
    (step : β → (Int → α) → (Int → α)) :
    ∀ (l : List β) (m : Int → α),
      (∀ b ∈ l, ∀ m', step b m' i = m' i) →
      l.foldl (fun acc b => step b acc) m i = m i := by
  intro l
  induction l with
  | nil => intro m _; rfl
  | cons b t ih =>
    intro m hstep
    simp only [List.foldl_cons]
    rw [ih _ (fun c hc m' => hstep c (List.mem_cons_of_mem _ hc) m')]
    exact hstep b (List.mem_cons_self _ _) m

theorem forLoop_hit {α : Type} (lo hi : Int) (i : Int) (v : α)
    (body : Int → (Int → α) → (Int → α)) (hit : Int → Prop) (m : Int → α)
    (hbody : ∀ k, lo ≤ k → k < hi → ∀ m',
      (hit k → body k m' i = v) ∧ (¬ hit k → body k m' i = m' i))
    (hex : ∃ k, lo ≤ k ∧ k < hi ∧ hit k) :
    forLoop lo hi body m i = v := by
  unfold forLoop
  apply foldl_point_hit i v (fun (k : Nat) acc => body (lo + (k : Int)) acc)
    (fun k => hit (lo + (k : Int)))
  · intro k hk m'
    have hk' := List.mem_range.1 hk
    exact hbody (lo + (k : Int)) (by omega) (by omega) m'
  · obtain ⟨k, h1, h2, h3⟩ := hex
    refine ⟨(k - lo).toNat, List.mem_range.2 (by omega), ?_⟩
    have : lo + (((k - lo).toNat : Nat) : Int) = k := by omega
    rw [this]; exact h3

theorem forLoop_miss {α : Type} (lo hi : Int) (i : Int)
    (body : Int → (Int → α) → (Int → α)) (m : Int → α)
    (hbody : ∀ k, lo ≤ k → k < hi → ∀ m', body k m' i = m' i) :
    forLoop lo hi body m i = m i := by
  unfold forLoop
  apply foldl_point_miss i (fun (k : Nat) acc => body (lo + (k : Int)) acc)
  intro k hk m'
  have hk' := List.mem_range.1 hk
  exact hbody (lo + (k : Int)) (by omega) (by omega) m'

/-! ### `draw` -/

theorem store_apply {α : Type} (m : Int → α) (i j : Int) (v : α) :
    store m i v j = if j = i then v else m j := rfl

theorem draw_body_eq (w x y : Int) (d : Words) :
    (if drawTest x y then store d (drawIndex w x y) 0xFF666666
      else store d (drawIndex w x y) 0xFFEEEEEE)
    = store d (drawIndex w x y) (drawColour x y) := by
  unfold drawColour
  cases drawTest x y <;> simp

theorem draw_row_hit (w y i : Int) (v : Nat) (d : Words)
    (hval : ∀ x, 0 ≤ x → x < w → drawIndex w x y = i → drawColour x y = v)
    (hex : ∃ x, 0 ≤ x ∧ x < w ∧ drawIndex w x y = i) :
    forLoop 0 w (fun x d =>
      if drawTest x y then store d (drawIndex w x y) 0xFF666666
      else store d (drawIndex w x y) 0xFFEEEEEE) d i = v := by
  apply forLoop_hit 0 w i v _ (fun x => drawIndex w x y = i) d _ hex
  intro x hx0 hx1 m'
  rw [draw_body_eq, store_apply]
  constructor
  · intro hh
    rw [if_pos hh.symm]
    exact hval x hx0 hx1 hh
  · intro hh
    rw [if_neg (fun h => hh h.symm)]

theorem draw_row_miss (w y i : Int) (d : Words)
    (hno : ∀ x, 0 ≤ x → x < w → drawIndex w x y ≠ i) :
    forLoop 0 w (fun x d =>
      if drawTest x y then store d (drawIndex w x y) 0xFF666666
      else store d (drawIndex w x y) 0xFFEEEEEE) d i = d i := by
  apply forLoop_miss
  intro x hx0 hx1 m'
  rw [draw_body_eq, store_apply, if_neg (fun h => hno x hx0 hx1 h.symm)]

theorem draw_at_hit (buf : shm_pixel_buffer) (data : Words) (i : Int) (v : Nat)
    (hval : ∀ x y, 0 ≤ x → x < buf.width → 0 ≤ y → y < buf.height →
      drawIndex buf.width x y = i → drawColour x y = v)
    (hex : ∃ x y, 0 ≤ x ∧ x < buf.width ∧ 0 ≤ y ∧ y < buf.height ∧
      drawIndex buf.width x y = i) :
    draw buf data i = v := by
  unfold draw
  apply forLoop_hit 0 buf.height i v _
    (fun y => ∃ x, 0 ≤ x ∧ x < buf.width ∧ drawIndex buf.width x y = i) data
  · intro y hy0 hy1 m'
    constructor
    · intro hh
      exact draw_row_hit buf.width y i v m' (fun x h0 h1 h => hval x y h0 h1 hy0 hy1 h) hh
    · intro hh
      apply draw_row_miss
      intro x h0 h1 h
      exact hh ⟨x, h0, h1, h⟩
  · obtain ⟨x, y, h0, h1, h2, h3, h4⟩ := hex
    exact ⟨y, h2, h3, x, h0, h1, h4⟩

theorem draw_at_miss (buf : shm_pixel_buffer) (data : Words) (i : Int)
    (hno : ∀ x y, 0 ≤ x → x < buf.width → 0 ≤ y → y < buf.height →
      drawIndex buf.width x y ≠ i) :
    draw buf data i = data i := by
  unfold draw
  apply forLoop_miss
  intro y hy0 hy1 m'
  apply draw_row_miss
  intro x h0 h1
  exact hno x y h0 h1 hy0 hy1

theorem pixel_offset_bounds (w h x y : Int) (hx0 : 0 ≤ x) (hx1 : x < w)
    (hy0 : 0 ≤ y) (hy1 : y < h) :
    0 ≤ y * w ∧ y * w + x < w * h ∧ x + y < w * h := by
  have hw : 0 < w := by omega
  have h1 : 0 ≤ y * w := Int.mul_nonneg hy0 (by omega)
  have h2 : (y + 1) * w ≤ h * w := Int.mul_le_mul_of_nonneg_right (by omega) (by omega)
  have h3 : y ≤ y * w := by nlinarith
  refine ⟨h1, by nlinarith, by nlinarith⟩

theorem drawIndex_exact (w h x y : Int) (hx0 : 0 ≤ x) (hx1 : x < w)
    (hy0 : 0 ≤ y) (hy1 : y < h) (hfit : w * h ≤ INT_MAX) :
    drawIndex w x y = y * w + x := by
  obtain ⟨h1, h2, _⟩ := pixel_offset_bounds w h x y hx0 hx1 hy0 hy1
  unfold INT_MAX at hfit
  unfold drawIndex iadd imul
  rw [wrap32_of_fits (y * w) (by omega) (by omega)]
  exact wrap32_of_fits _ (by omega) (by omega)

theorem drawTest_exact (x y : Int) (hx0 : 0 ≤ x) (hy0 : 0 ≤ y)
    (hfit : x + y ≤ INT_MAX) :
    drawTest x y = decide ((x + y / 8 * 8) % 16 < 8) := by
  unfold INT_MAX at hfit
  unfold drawTest imod iadd imul idiv
  rw [Int.tdiv_eq_ediv hy0 (by norm_num)]
  rw [wrap32_of_fits (y / 8) (by omega) (by omega)]
  rw [wrap32_of_fits (y / 8 * 8) (by omega) (by omega)]
  rw [wrap32_of_fits (x + y / 8 * 8) (by omega) (by omega)]
  rw [Int.tmod_eq_emod (by omega) (by norm_num)]

theorem drawColour_exact (x y : Int) (hx0 : 0 ≤ x) (hy0 : 0 ≤ y)
    (hfit : x + y ≤ INT_MAX) :
    drawColour x y = if (x + y / 8 * 8) % 16 < 8 then 0xFF666666 else 0xFFEEEEEE := by
  unfold drawColour
  rw [drawTest_exact x y hx0 hy0 hfit]
  by_cases h : (x + y / 8 * 8) % 16 < 8 <;> simp [h]

theorem row_major_injective (w x y x' y' : Int) (hx0 : 0 ≤ x) (hx1 : x < w)
    (hx0' : 0 ≤ x') (hx1' : x' < w) (h : y * w + x = y' * w + x') :
    x = x' ∧ y = y' := by
  have hw : 0 < w := by omega
  have hy : y = y' := by
    rcases lt_trichotomy y y' with hlt | heq | hgt
    · have : (y + 1) * w ≤ y' * w := Int.mul_le_mul_of_nonneg_right (by omega) (by omega)
      nlinarith
    · exact heq
    · have : (y' + 1) * w ≤ y * w := Int.mul_le_mul_of_nonneg_right (by omega) (by omega)
      nlinarith
  subst hy
  exact ⟨by omega, rfl⟩

theorem draw_pixel (buf : shm_pixel_buffer) (data : Words)
    (hfit : buf.width * buf.height ≤ INT_MAX) (x y : Int)
    (hx0 : 0 ≤ x) (hx1 : x < buf.width) (hy0 : 0 ≤ y) (hy1 : y < buf.height) :
    draw buf data (y * buf.width + x)
      = if (x + y / 8 * 8) % 16 < 8 then 0xFF666666 else 0xFFEEEEEE := by
  have hc : drawColour x y
      = if (x + y / 8 * 8) % 16 < 8 then 0xFF666666 else 0xFFEEEEEE := by
    apply drawColour_exact x y hx0 hy0
    have := (pixel_offset_bounds buf.width buf.height x y hx0 hx1 hy0 hy1).2.2
    omega
  rw [← hc]
  apply draw_at_hit
  · intro x' y' h0 h1 h2 h3 hidx
    rw [drawIndex_exact buf.width buf.height x' y' h0 h1 h2 h3 hfit] at hidx
    obtain ⟨rfl, rfl⟩ := row_major_injective buf.width x' y' x y h0 h1 hx0 hx1 hidx
    rfl
  · exact ⟨x, y, hx0, hx1, hy0, hy1,
      drawIndex_exact buf.width buf.height x y hx0 hx1 hy0 hy1 hfit⟩

/-- C1 (as amended): for a buffer with `0 ≤ width`, `0 ≤ height` and
`width * height ≤ INT_MAX`, after `draw` the word at row-major index
`y * width + x` of every pixel in range is `0xFF666666` when
`(x + y / 8 * 8) % 16 < 8` and `0xFFEEEEEE` otherwise; every index in
`[0, width * height)` holds the colour of its pixel whatever the memory held
before (it is written), and every index outside that range is left as it was. -/
theorem draw_checkerboard (buf : shm_pixel_buffer) (data : Words)
    (hw : 0 ≤ buf.width) (_hh : 0 ≤ buf.height)
    (hfit : buf.width * buf.height ≤ INT_MAX) :
    (∀ x y : Int, 0 ≤ x → x < buf.width → 0 ≤ y → y < buf.height →
      draw buf data (y * buf.width + x)
        = if (x + y / 8 * 8) % 16 < 8 then 0xFF666666 else 0xFFEEEEEE) ∧
    (∀ i : Int, 0 ≤ i → i < buf.width * buf.height →
      draw buf data i
        = if (i % buf.width + i / buf.width / 8 * 8) % 16 < 8
          then 0xFF666666 else 0xFFEEEEEE) ∧
    (∀ i : Int, (i < 0 ∨ buf.width * buf.height ≤ i) → draw buf data i = data i) := by
  refine ⟨fun x y hx0 hx1 hy0 hy1 => draw_pixel buf data hfit x y hx0 hx1 hy0 hy1, ?_, ?_⟩
  · intro i hi0 hi1
    have hwpos : 0 < buf.width := by
      rcases lt_or_eq_of_le hw with h | h
      · exact h
      · rw [← h] at hi1; simp at hi1; omega
    have hx0 : 0 ≤ i % buf.width := Int.emod_nonneg i (by omega)
    have hx1 : i % buf.width < buf.width := Int.emod_lt_of_pos i hwpos
    have hy0 : 0 ≤ i / buf.width := Int.ediv_nonneg hi0 hw
    have hy1 : i / buf.width < buf.height :=
      Int.ediv_lt_of_lt_mul hwpos (by rw [Int.mul_comm]; exact hi1)
    have key := draw_pixel buf data hfit (i % buf.width) (i / buf.width) hx0 hx1 hy0 hy1
    have hi : i / buf.width * buf.width + i % buf.width = i := by
      rw [Int.mul_comm]; exact Int.ediv_add_emod i buf.width
    rw [hi] at key
    exact key
  · intro i hi
    apply draw_at_miss
    intro x y hx0 hx1 hy0 hy1
    rw [drawIndex_exact buf.width buf.height x y hx0 hx1 hy0 hy1 hfit]
    obtain ⟨h1, h2, _⟩ := pixel_offset_bounds buf.width buf.height x y hx0 hx1 hy0 hy1
    omega

/-- C1, instance: the 480 x 360 buffer of `main`, zero-filled before `draw`. -/
theorem draw_checkerboard_witness :
    (0 : Int) ≤ demoBuffer.width ∧ (0 : Int) ≤ demoBuffer.height ∧
    demoBuffer.width * demoBuffer.height ≤ INT_MAX ∧
    draw demoBuffer (fun _ => 0) (5 * demoBuffer.width + 3) = 0xFF666666 ∧
    draw demoBuffer (fun _ => 0) (8 * demoBuffer.width + 3) = 0xFFEEEEEE ∧
    draw demoBuffer (fun _ => 0) (480 * 360) = 0 :=
  have h := draw_checkerboard demoBuffer (fun _ => 0) (by decide) (by decide) (by decide)
  ⟨by decide, by decide, by decide,
    h.1 3 5 (by decide) (by decide) (by decide) (by decide),
    h.1 3 8 (by decide) (by decide) (by decide) (by decide),
    h.2.2 (480 * 360) (Or.inr (by decide))⟩

/-- C1, counterexample to the claim as stated: for the 65536 x 32769 buffer
(both dimensions non-negative) the subscript of pixel `(0, 32768)` overflows
`int`: `draw` stores at offset `-2147483648`, outside `[0, width * height)`,
and the word at row-major index `32768 * 65536 + 0` is never written. -/
theorem draw_overflow_counterexample :
    (0 : Int) ≤ hugeBuffer.width ∧ (0 : Int) ≤ hugeBuffer.height ∧
    (32768 : Int) < hugeBuffer.height ∧
    draw hugeBuffer (fun _ => 0) (-2147483648) = 0xFF666666 ∧
    draw hugeBuffer (fun _ => 0) (32768 * hugeBuffer.width + 0) = 0 := by
  refine ⟨by decide, by decide, by decide, ?_, ?_⟩
  · apply draw_at_hit
    · intro x y hx0 hx1 hy0 hy1 hidx
      have hx1' : x < 65536 := hx1
      have hy1' : y < 32769 := hy1
      have hidx' : wrap32 (wrap32 (y * 65536) + x) = -2147483648 := hidx
      unfold wrap32 at hidx'
      have hx : x = 0 := by omega
      have hy : y = 32768 := by omega
      subst hx; subst hy
      decide
    · exact ⟨0, 32768, by decide, by decide, by decide, by decide, by decide⟩
  · apply draw_at_miss
    intro x y _ _ _ _ hidx
    have h := wrap32_range (imul y hugeBuffer.width + x)
    have hidx' : wrap32 (imul y hugeBuffer.width + x) = 32768 * 65536 + 0 := hidx
    omega

/-! ### The checkerboard -/

theorem checked32_some (z : Int) (h0 : -2147483648 ≤ z) (h1 : z ≤ 2147483647) :
    checked32 z = some z := by
  unfold checked32 INT_MIN INT_MAX
  rw [if_pos ⟨h0, h1⟩]

theorem checked32_none (z : Int) (h : 2147483647 < z) : checked32 z = none := by
  unfold checked32 INT_MIN INT_MAX
  rw [if_neg (fun hh => by omega)]

theorem drawColourChecked_of_sum (x y z : Int) (hx : 0 ≤ x) (hy : 0 ≤ y)
    (hz : x + y / 8 * 8 = z) :
    drawColourChecked x y
      = if z ≤ INT_MAX then some (if z % 16 < 8 then 0xFF666666 else 0xFFEEEEEE)
        else none := by
  subst hz
  have hdiv : y.tdiv 8 = y / 8 := Int.tdiv_eq_ediv hy (by norm_num)
  unfold drawColourChecked drawTestChecked INT_MAX
  by_cases h : x + y / 8 * 8 ≤ 2147483647
  · have hmod : (x + y / 8 * 8).tmod 16 = (x + y / 8 * 8) % 16 :=
      Int.tmod_eq_emod (by omega) (by norm_num)
    rw [checked32_some x (by omega) (by omega)]
    simp only [Option.some_bind]
    rw [checked32_some y (by omega) (by omega)]
    simp only [Option.some_bind]
    rw [hdiv, checked32_some (y / 8) (by omega) (by omega)]
    simp only [Option.some_bind]
    rw [checked32_some (y / 8 * 8) (by omega) (by omega)]
    simp only [Option.some_bind]
    rw [checked32_some (x + y / 8 * 8) (by omega) (by omega)]
    simp only [Option.some_bind, Option.map_some']
    rw [hmod, if_pos h]
    by_cases hm : (x + y / 8 * 8) % 16 < 8 <;> simp [hm]
  · rw [if_neg h]
    by_cases hx' : x ≤ 2147483647
    · rw [checked32_some x (by omega) hx']
      simp only [Option.some_bind]
      by_cases hy' : y ≤ 2147483647
      · rw [checked32_some y (by omega) hy']
        simp only [Option.some_bind]
        rw [hdiv, checked32_some (y / 8) (by omega) (by omega)]
        simp only [Option.some_bind]
        rw [checked32_some (y / 8 * 8) (by omega) (by omega)]
        simp only [Option.some_bind]
        rw [checked32_none (x + y / 8 * 8) (by omega)]
        rfl
      · rw [checked32_none y (by omega)]
        rfl
    · rw [checked32_none x (by omega)]
      rfl

theorem pattern_shift8 (z : Int) :
    (if (z + 8) % 16 < 8 then (0xFF666666 : Nat) else 0xFFEEEEEE)
      ≠ (if z % 16 < 8 then (0xFF666666 : Nat) else 0xFFEEEEEE) := by
  by_cases h : z % 16 < 8
  · have h' : ¬ (z + 8) % 16 < 8 := by omega
    simp [h, h']
  · have h' : (z + 8) % 16 < 8 := by omega
    simp [h, h']

theorem pattern_shift16 (z : Int) :
    (if (z + 16) % 16 < 8 then (0xFF666666 : Nat) else 0xFFEEEEEE)
      = (if z % 16 < 8 then (0xFF666666 : Nat) else 0xFFEEEEEE) := by
  have h : (z + 16) % 16 = z % 16 := by omega
  rw [h]

/-- C10: for every `x ≥ 0` and `y ≥ 0`, with `c` the colour `draw` assigns as
ISO C defines it (`drawColourChecked`, undefined exactly where
`x + y / 8 * 8` does not fit in `int`), the pattern is an 8 x 8 checkerboard:
wherever the shifted pixel has a colour, so has `(x, y)`, and
`c (x+8) y ≠ c x y`, `c x (y+8) ≠ c x y`, `c (x+16) y = c x y`,
`c x (y+16) = c x y`; and `c x y = c x (8 * (y / 8))` (both undefined, or both
the same colour). Where `c x y` is defined it is the colour `drawColour x y`
of the test in `draw`, and for every pixel of a buffer whose pixel count fits
in `int` it is defined and is the word `draw` leaves at `y * width + x`. -/
theorem drawColour_checkerboard (x y : Int) (hx : 0 ≤ x) (hy : 0 ≤ y) :
    (∀ a, drawColourChecked (x + 8) y = some a →
      ∃ b, drawColourChecked x y = some b ∧ a ≠ b) ∧
    (∀ a, drawColourChecked x (y + 8) = some a →
      ∃ b, drawColourChecked x y = some b ∧ a ≠ b) ∧
    (∀ a, drawColourChecked (x + 16) y = some a → drawColourChecked x y = some a) ∧
    (∀ a, drawColourChecked x (y + 16) = some a → drawColourChecked x y = some a) ∧
    drawColourChecked x y = drawColourChecked x (8 * (y / 8)) ∧
    (∀ b, drawColourChecked x y = some b → drawColour x y = b) ∧
    (drawColourChecked x y ≠ none ↔ x + y / 8 * 8 ≤ INT_MAX) ∧
    (∀ (buf : shm_pixel_buffer) (data : Words), buf.width * buf.height ≤ INT_MAX →
      x < buf.width → y < buf.height →
      drawColourChecked x y = some (draw buf data (y * buf.width + x))) := by
  have e0 := drawColourChecked_of_sum x y (x + y / 8 * 8) hx hy rfl
  have e1 := drawColourChecked_of_sum (x + 8) y (x + y / 8 * 8 + 8) (by omega) hy (by omega)
  have e2 := drawColourChecked_of_sum x (y + 8) (x + y / 8 * 8 + 8) hx (by omega) (by omega)
  have e3 := drawColourChecked_of_sum (x + 16) y (x + y / 8 * 8 + 16) (by omega) hy (by omega)
  have e4 := drawColourChecked_of_sum x (y + 16) (x + y / 8 * 8 + 16) hx (by omega)
    (by omega)
  have e5 := drawColourChecked_of_sum x (8 * (y / 8)) (x + y / 8 * 8) hx (by omega)
    (by omega)
  refine ⟨?_, ?_, ?_, ?_, ?_, ?_, ?_, ?_⟩
  · intro a ha
    rw [e1] at ha
    split at ha
    · next hfit =>
      cases ha
      unfold INT_MAX at hfit
      rw [e0, if_pos (by unfold INT_MAX; omega)]
      exact ⟨_, rfl, pattern_shift8 _⟩
    · cases ha
  · intro a ha
    rw [e2] at ha
    split at ha
    · next hfit =>
      cases ha
      unfold INT_MAX at hfit
      rw [e0, if_pos (by unfold INT_MAX; omega)]
      exact ⟨_, rfl, pattern_shift8 _⟩
    · cases ha
  · intro a ha
    rw [e3] at ha
    split at ha
    · next hfit =>
      cases ha
      unfold INT_MAX at hfit
      rw [e0, if_pos (by unfold INT_MAX; omega), pattern_shift16]
    · cases ha
  · intro a ha
    rw [e4] at ha
    split at ha
    · next hfit =>
      cases ha
      unfold INT_MAX at hfit
      rw [e0, if_pos (by unfold INT_MAX; omega), pattern_shift16]
    · cases ha
  · rw [e0, e5]
  · intro b hb
    rw [e0] at hb
    split at hb
    · next hfit =>
      cases hb
      unfold INT_MAX at hfit
      unfold drawColour drawTest imod iadd imul idiv
      rw [Int.tdiv_eq_ediv hy (by norm_num)]
      rw [wrap32_of_fits (y / 8) (by omega) (by omega)]
      rw [wrap32_of_fits (y / 8 * 8) (by omega) (by omega)]
      rw [wrap32_of_fits (x + y / 8 * 8) (by omega) (by omega)]
      rw [Int.tmod_eq_emod (by omega) (by norm_num)]
      by_cases hm : (x + y / 8 * 8) % 16 < 8 <;> simp [hm]
    · cases hb
  · rw [e0]
    constructor
    · intro h
      by_contra hfit
      rw [if_neg hfit] at h
      exact h rfl
    · intro hfit
      rw [if_pos hfit]
      simp
  · intro buf data hfit hx1 hy1
    have hb := (pixel_offset_bounds buf.width buf.height x y hx hx1 hy hy1).2.2
    rw [draw_pixel buf data hfit x y hx hx1 hy hy1, e0, if_pos (by omega)]

/-- C10, instance: the pixel `(3, 5)`, and the pixel `(2147483625, 7)` near the
top of the `int` range. -/
theorem drawColour_checkerboard_witness :
    (0 : Int) ≤ 3 ∧ (0 : Int) ≤ 5 ∧
    drawColourChecked (3 + 8) 5 = some 0xFFEEEEEE ∧
    (∃ b, drawColourChecked 3 5 = some b ∧ (0xFFEEEEEE : Nat) ≠ b) ∧
    (0 : Int) ≤ 2147483625 ∧ (0 : Int) ≤ 7 ∧
    drawColourChecked (2147483625 + 16) 7 = some 0xFFEEEEEE ∧
    drawColourChecked 2147483625 7 = some 0xFFEEEEEE ∧
    drawColourChecked 3 5 = some (draw demoBuffer (fun _ => 0) (5 * demoBuffer.width + 3)) :=
  ⟨by decide, by decide, by decide,
    (drawColour_checkerboard 3 5 (by decide) (by decide)).1 _ (by decide),
    by decide, by decide, by decide,
    (drawColour_checkerboard 2147483625 7 (by decide) (by decide)).2.2.1 _ (by decide),
    (drawColour_checkerboard 3 5 (by decide) (by decide)).2.2.2.2.2.2.2 demoBuffer
      (fun _ => 0) (by decide) (by decide) (by decide)⟩

/-! ### `paint` and `redraw` -/

theorem pixel_count : imul WIDTH HEIGHT = 172800 := by
  unfold imul wrap32 WIDTH HEIGHT
  norm_num

theorem paint_pixel_value (s : P3State) :
    (paint s).pixel_value
      = if (s.pixel_value + 0x10101) % 4294967296 > 0xffffff then 0
        else (s.pixel_value + 0x10101) % 4294967296 := by
  simp only [paint]

theorem paint_fills (s : P3State) (i : Int) (h0 : 0 ≤ i) (h1 : i < 172800) :
    (paint s).shm_data i = s.pixel_value := by
  have hc := pixel_count
  simp only [paint]
  apply forLoop_hit 0 (imul WIDTH HEIGHT) i s.pixel_value _ (fun k => k = i)
  · intro k _ _ m'
    rw [store_apply]
    constructor
    · intro hk; rw [if_pos hk.symm]
    · intro hk; rw [if_neg (fun h => hk h.symm)]
  · exact ⟨i, h0, by omega, rfl⟩

theorem paint_frame (s : P3State) (i : Int) (h : i < 0 ∨ 172800 ≤ i) :
    (paint s).shm_data i = s.shm_data i := by
  have hc := pixel_count
  simp only [paint]
  apply forLoop_miss
  intro k hk0 hk1 m'
  rw [store_apply, if_neg (by omega)]

theorem redraw_pixel_value (env : P3Env) (s : P3State) :
    (redraw env s).pixel_value = (paint s).pixel_value := by
  simp only [redraw, P3State.call, paint]

theorem redraw_shm_data (env : P3Env) (s : P3State) :
    (redraw env s).shm_data = (paint s).shm_data := by
  simp only [redraw, P3State.call, paint]

theorem accumulator_step (k : Nat) (hk : k ≤ 255) :
    (if (k * 0x10101 + 0x10101) % 4294967296 > 0xffffff then 0
      else (k * 0x10101 + 0x10101) % 4294967296)
    = if k * 0x10101 + 0x10101 > 0xffffff then 0 else k * 0x10101 + 0x10101 := by
  rw [Nat.mod_eq_of_lt (by omega)]

theorem paint_iterate_pixel_value (s : P3State) (h : s.pixel_value = 0) (n : Nat) :
    (paint^[n] s).pixel_value = (n % 256) * 0x10101 := by
  induction n with
  | zero => simpa using h
  | succ n ih =>
    rw [Function.iterate_succ_apply', paint_pixel_value, ih]
    have hlt : n % 256 < 256 := Nat.mod_lt _ (by norm_num)
    rw [accumulator_step _ (by omega)]
    split <;> omega

/-- The accumulator is a multiple `k * 0x10101` with `k ≤ 255`. -/
theorem p3_deliver_accumulator (env : P3Env) (evs : List P3Event) :
    ∀ s : P3State, (∃ k, k ≤ 255 ∧ s.pixel_value = k * 0x10101) →
      ∃ k, k ≤ 255 ∧ (evs.foldl (p3_deliver env) s).pixel_value = k * 0x10101 := by
  induction evs with
  | nil => intro s hs; simpa using hs
  | cons e t ih =>
    intro s hs
    simp only [List.foldl_cons]
    apply ih
    obtain ⟨k, hk, hpv⟩ := hs
    cases e with
    | frame_done =>
      show ∃ k, k ≤ 255 ∧ (redraw env s).pixel_value = k * 0x10101
      rw [redraw_pixel_value, paint_pixel_value, hpv, accumulator_step k hk]
      by_cases hk' : k = 255
      · refine ⟨0, by omega, ?_⟩
        split <;> omega
      · refine ⟨k + 1, by omega, ?_⟩
        split <;> omega
    | ping serial => exact ⟨k, hk, hpv⟩
    | configure => exact ⟨k, hk, hpv⟩
    | popup_done => exact ⟨k, hk, hpv⟩
    | format => exact ⟨k, hk, hpv⟩

/-- C3: in a run of the animated variant that starts with `pixel_value = 0`,
after any sequence of delivered events (frame callbacks, pings, ...), the next
`redraw` calls `paint` once, and that call increases `pixel_value` by exactly
`0x10101` (a strict increase, without wrap-around of the `uint32_t`), except
that when the incremented value exceeds `0xFFFFFF` the accumulator becomes `0`. -/
theorem redraw_advances_accumulator (env : P3Env) (s : P3State) (evs : List P3Event)
    (hstart : s.pixel_value = 0) :
    (redraw env (evs.foldl (p3_deliver env) s)).pixel_value
      = (paint (evs.foldl (p3_deliver env) s)).pixel_value ∧
    ((evs.foldl (p3_deliver env) s).pixel_value + 0x10101 ≤ 0xFFFFFF →
      (paint (evs.foldl (p3_deliver env) s)).pixel_value
          = (evs.foldl (p3_deliver env) s).pixel_value + 0x10101 ∧
      (evs.foldl (p3_deliver env) s).pixel_value
          < (paint (evs.foldl (p3_deliver env) s)).pixel_value) ∧
    ((evs.foldl (p3_deliver env) s).pixel_value + 0x10101 > 0xFFFFFF →
      (paint (evs.foldl (p3_deliver env) s)).pixel_value = 0) := by
  obtain ⟨k, hk, hpv⟩ := p3_deliver_accumulator env evs s ⟨0, by omega, by omega⟩
  refine ⟨redraw_pixel_value env _, ?_, ?_⟩
  · intro hle
    rw [paint_pixel_value, hpv, accumulator_step k hk]
    rw [hpv] at hle
    split <;> omega
  · intro hgt
    rw [paint_pixel_value, hpv, accumulator_step k hk]
    rw [hpv] at hgt
    split <;> omega

/-- C3, instance: the start state, after one frame callback and one ping. -/
theorem redraw_advances_accumulator_witness :
    (p3_init (fun _ => 0)).pixel_value = 0 ∧
    (paint ([P3Event.frame_done, P3Event.ping 7].foldl (p3_deliver demoP3Env)
        (p3_init (fun _ => 0)))).pixel_value = 0x10101 + 0x10101 :=
  ⟨rfl, ((redraw_advances_accumulator demoP3Env (p3_init (fun _ => 0))
    [P3Event.frame_done, P3Event.ping 7] rfl).2.1 (by decide)).1⟩

/-- C9: started with `pixel_value = 0`, the `(n+1)`-th call of `paint` fills all
`WIDTH * HEIGHT = 172800` words with `(n mod 256) * 0x10101` and leaves
`pixel_value = ((n+1) mod 256) * 0x10101`; the accumulator never exceeds
`0xFFFFFF` between calls, has three equal colour bytes and a zero top byte,
`0xFFFFFF` is painted on call 256, and the painted sequence has period exactly
256. -/
theorem paint_sequence (s : P3State) (hstart : s.pixel_value = 0) (n : Nat) :
    imul WIDTH HEIGHT = 172800 ∧
    (∀ i : Int, 0 ≤ i → i < 172800 →
      (paint (paint^[n] s)).shm_data i = (n % 256) * 0x10101) ∧
    (paint (paint^[n] s)).pixel_value = ((n + 1) % 256) * 0x10101 ∧
    (paint^[n] s).pixel_value ≤ 0xFFFFFF ∧
    ((paint^[n] s).pixel_value % 256 = (paint^[n] s).pixel_value / 256 % 256 ∧
      (paint^[n] s).pixel_value % 256 = (paint^[n] s).pixel_value / 65536 % 256 ∧
      (paint^[n] s).pixel_value / 16777216 = 0) ∧
    (∀ i : Int, 0 ≤ i → i < 172800 → (paint (paint^[255] s)).shm_data i = 0xFFFFFF) ∧
    (paint^[n + 256] s).pixel_value = (paint^[n] s).pixel_value ∧
    (∀ k, 0 < k → k < 256 → (paint^[n + k] s).pixel_value ≠ (paint^[n] s).pixel_value) := by
  have hn := paint_iterate_pixel_value s hstart n
  have hlt : n % 256 < 256 := Nat.mod_lt _ (by norm_num)
  refine ⟨pixel_count, ?_, ?_, ?_, ?_, ?_, ?_, ?_⟩
  · intro i h0 h1
    rw [paint_fills _ i h0 h1, hn]
  · have := paint_iterate_pixel_value s hstart (n + 1)
    rw [Function.iterate_succ_apply'] at this
    exact this
  · rw [hn]; omega
  · rw [hn]
    generalize n % 256 = k at hlt
    have h1 : k * 0x10101 / 256 = k * 257 := by omega
    have h2 : k * 0x10101 / 65536 = k := by omega
    refine ⟨?_, ?_, ?_⟩
    · rw [h1]; omega
    · rw [h2]; omega
    · omega
  · intro i h0 h1
    rw [paint_fills _ i h0 h1, paint_iterate_pixel_value s hstart 255]
  · rw [paint_iterate_pixel_value s hstart (n + 256), hn]
    omega
  · intro k hk0 hk1
    rw [paint_iterate_pixel_value s hstart (n + k), hn]
    omega

/-- C9, instance: the start state of `p3.cpp` with a zero-filled mapping. -/
theorem paint_sequence_witness :
    (p3_init (fun _ => 0)).pixel_value = 0 ∧
    (paint (paint^[300] (p3_init (fun _ => 0)))).pixel_value = 45 * 0x10101 :=
  ⟨rfl, (paint_sequence (p3_init (fun _ => 0)) rfl 300).2.2.1⟩

/-! ### Buffer sizes -/

theorem alloc_size_exact (w h : Int) (h0 : 0 ≤ w * h * 4) (h1 : w * h * 4 ≤ INT_MAX) :
    toSizeT (imul (imul w h) 4) = w * h * 4 ∧
    wrap64 (toSizeT (imul (imul w h) 4)) = w * h * 4 ∧
    wrap32 (toSizeT (imul (imul w h) 4)) = w * h * 4 := by
  unfold INT_MAX at h1
  have e1 : imul w h = w * h := wrap32_of_fits _ (by omega) (by omega)
  have e2 : imul (w * h) 4 = w * h * 4 := wrap32_of_fits _ (by omega) (by omega)
  rw [e1, e2]
  unfold toSizeT wrap64 wrap32
  omega

theorem alloc_calls (env : XdgEnv) (width height : Int) (s : XdgState) :
    ∃ made, (alloc_shm_pixel_buffer env width height s).2.trace = s.trace ++ made ∧
      ∀ c ∈ made,
        carriesSizes (toSizeT (imul (imul width height) 4)) (imul width 4) c ∨
        c = .ftruncate env.shm_open (wrap64 (toSizeT (imul (imul width height) 4))) ∨
        c = .wl_shm_create_pool s.wl_shm env.shm_open
              (wrap32 (toSizeT (imul (imul width height) 4))) := by
  unfold alloc_shm_pixel_buffer open_shm_file
  simp only [XdgState.call]
  by_cases ha : env.asprintf = -1
  · simp only [ha, if_true]
    refine ⟨_, by simp; rfl, ?_⟩
    intro c hc; simp at hc; rcases hc with rfl | rfl | rfl <;> simp [carriesSizes]
  · by_cases hs : env.shm_open < 0
    · simp only [ha, hs, if_true, if_false]
      refine ⟨_, by simp; rfl, ?_⟩
      intro c hc; simp at hc
      rcases hc with rfl | rfl | rfl | rfl | rfl | rfl <;> simp [carriesSizes]
    · by_cases ht : env.ftruncate < 0
      · cases hm : env.mmap with
        | none =>
          simp only [ha, hs, ht, hm, if_true, if_false]
          refine ⟨_, by simp; rfl, ?_⟩
          intro c hc; simp at hc
          rcases hc with rfl | rfl | rfl | rfl | rfl | rfl | rfl | rfl | rfl | rfl <;>
            simp [carriesSizes]
        | some pb =>
          by_cases hp : env.pool = 0
          · simp only [ha, hs, ht, hm, hp, if_true, if_false]
            refine ⟨_, by simp; rfl, ?_⟩
            intro c hc; simp at hc
            rcases hc with rfl | rfl | rfl | rfl | rfl | rfl | rfl | rfl | rfl | rfl | rfl <;>
              simp [carriesSizes]
          · simp only [ha, hs, ht, hm, hp, if_true, if_false]
            refine ⟨_, by simp; rfl, ?_⟩
            intro c hc; simp at hc
            rcases hc with rfl | rfl | rfl | rfl | rfl | rfl | rfl | rfl | rfl | rfl | rfl | rfl <;>
              simp [carriesSizes]
      · cases hm : env.mmap with
        | none =>
          simp only [ha, hs, ht, hm, if_true, if_false]
          refine ⟨_, by simp; rfl, ?_⟩
          intro c hc; simp at hc
          rcases hc with rfl | rfl | rfl | rfl | rfl | rfl | rfl | rfl | rfl <;>
            simp [carriesSizes]
        | some pb =>
          by_cases hp : env.pool = 0
          · simp only [ha, hs, ht, hm, hp, if_true, if_false]
            refine ⟨_, by simp; rfl, ?_⟩
            intro c hc; simp at hc
            rcases hc with rfl | rfl | rfl | rfl | rfl | rfl | rfl | rfl | rfl | rfl <;>
              simp [carriesSizes]
          · simp only [ha, hs, ht, hm, hp, if_true, if_false]
            refine ⟨_, by simp; rfl, ?_⟩
            intro c hc; simp at hc
            rcases hc with rfl | rfl | rfl | rfl | rfl | rfl | rfl | rfl | rfl | rfl | rfl <;>
              simp [carriesSizes]

theorem create_buffer_calls (env : P3Env) (s : P3State) :
    ∃ made, (create_buffer env s).state.trace = s.trace ++ made ∧
      ∀ c ∈ made, carriesSizes 691200 1920 c := by
  have hstride : imul WIDTH 4 = 1920 := by unfold imul wrap32 WIDTH; norm_num
  have hsize : imul 1920 HEIGHT = 691200 := by unfold imul wrap32 HEIGHT; norm_num
  have hconv : toSizeT 691200 = 691200 := by unfold toSizeT; norm_num
  unfold create_buffer os_create_anonymous_file create_tmpfile_cloexec
  simp only [P3State.call, hstride, hsize, hconv]
  cases hx : env.xdg_runtime_dir with
  | none =>
    simp only [Run.state]
    refine ⟨_, by simp; rfl, ?_⟩
    intro c hc; simp at hc
    rcases hc with rfl | rfl <;> simp [carriesSizes]
  | some path =>
    by_cases hm : env.malloc = 0
    · simp only [hm, if_true, Run.state]
      refine ⟨_, by simp; rfl, ?_⟩
      intro c hc; simp at hc
      rcases hc with rfl | rfl | rfl <;> simp [carriesSizes]
    · by_cases hf : env.mkostemp ≥ 0
      · have hf' : ¬ env.mkostemp < 0 := by omega
        by_cases ht : env.ftruncate < 0
        · simp only [hm, hf, hf', ht, if_true, if_false, Run.state]
          refine ⟨_, by simp; rfl, ?_⟩
          intro c hc; simp at hc
          rcases hc with rfl | rfl | rfl | rfl | rfl | rfl | rfl | rfl <;> simp [carriesSizes]
        · cases hmm : env.mmap with
          | none =>
            simp only [hm, hf, hf', ht, if_true, if_false, Run.state]
            refine ⟨_, by simp; rfl, ?_⟩
            intro c hc; simp at hc
            rcases hc with rfl | rfl | rfl | rfl | rfl | rfl | rfl | rfl | rfl <;>
              simp [carriesSizes]
          | some addr =>
            simp only [hm, hf, hf', ht, if_true, if_false, Run.state]
            refine ⟨_, by simp; rfl, ?_⟩
            intro c hc; simp at hc
            rcases hc with rfl | rfl | rfl | rfl | rfl | rfl | rfl | rfl | rfl | rfl <;>
              simp [carriesSizes]
      · have hf' : env.mkostemp < 0 := by omega
        simp only [hm, hf, hf', if_true, if_false, Run.state]
        refine ⟨_, by simp; rfl, ?_⟩
        intro c hc; simp at hc
        rcases hc with rfl | rfl | rfl | rfl | rfl <;> simp [carriesSizes]

/-- C4 (as amended): when `0 ≤ width * height * 4 ≤ INT_MAX` and
`INT_MIN ≤ width * 4 ≤ INT_MAX` (no `int` overflow, no negative size), every
truncation, mapping and pool creation that `alloc_shm_pixel_buffer` makes
carries the size `width * height * 4`, and the buffer creation carries the
stride `width * 4`, whatever the calls return; and every such call of
`create_buffer` in `p3.cpp` carries size `691200` and stride `1920`. -/
theorem alloc_sizes (env : XdgEnv) (width height : Int) (s : XdgState)
    (h0 : 0 ≤ width * height * 4) (h1 : width * height * 4 ≤ INT_MAX)
    (h2 : INT_MIN ≤ width * 4) (h3 : width * 4 ≤ INT_MAX) :
    (∃ made, (alloc_shm_pixel_buffer env width height s).2.trace = s.trace ++ made ∧
      ∀ c ∈ made, carriesSizes (width * height * 4) (width * 4) c) ∧
    (∀ (env3 : P3Env) (s3 : P3State),
      ∃ made, (create_buffer env3 s3).state.trace = s3.trace ++ made ∧
        ∀ c ∈ made, carriesSizes 691200 1920 c) := by
  refine ⟨?_, create_buffer_calls⟩
  obtain ⟨made, htrace, hall⟩ := alloc_calls env width height s
  obtain ⟨e1, e2, e3⟩ := alloc_size_exact width height h0 h1
  have e4 : imul width 4 = width * 4 := by
    unfold INT_MAX at h3
    unfold INT_MIN at h2
    exact wrap32_of_fits _ (by omega) (by omega)
  refine ⟨made, htrace, ?_⟩
  intro c hc
  rcases hall c hc with h | h | h
  · rw [e1, e4] at h; exact h
  · rw [e2] at h; rw [h]; simp [carriesSizes]
  · rw [e3] at h; rw [h]; simp [carriesSizes]

/-- C4, instance: `width = 480`, `height = 360` with every call succeeding; the
size is `691200` and the stride `1920`. -/
theorem alloc_sizes_witness :
    (0 : Int) ≤ 480 * 360 * 4 ∧ (480 : Int) * 360 * 4 ≤ INT_MAX ∧
    INT_MIN ≤ (480 : Int) * 4 ∧ (480 : Int) * 4 ≤ INT_MAX ∧
    (480 : Int) * 360 * 4 = 691200 ∧ (480 : Int) * 4 = 1920 ∧
    (alloc_shm_pixel_buffer demoXdgEnv 480 360 (xdg_init (fun _ => 0))).2.trace
      = [.getpid, .clock_gettime, .asprintf, .shm_open, .ftruncate 3 691200,
         .shm_unlink, .free, .mmap 691200 3, .wl_shm_create_pool 0 3 691200,
         .wl_shm_pool_create_buffer 50 0 480 360 1920, .close 3] ∧
    ∃ made, (alloc_shm_pixel_buffer demoXdgEnv 480 360 (xdg_init (fun _ => 0))).2.trace
        = (xdg_init (fun _ => 0)).trace ++ made ∧
      ∀ c ∈ made, carriesSizes (480 * 360 * 4) (480 * 4) c :=
  ⟨by decide, by decide, by decide, by decide, by decide, by decide, by decide,
    (alloc_sizes demoXdgEnv 480 360 (xdg_init (fun _ => 0))
      (by decide) (by decide) (by decide) (by decide)).1⟩

/-- C4, counterexample to the claim as stated: with `width = -1`, `height = 1`
the mapping length is `18446744073709551612`, not the product `-4`; with
`width = height = 65536` the `int` product overflows and the size is `0`, not
`17179869184`; with `width = 1073741824` the stride is `0`, not `4294967296`. -/
theorem alloc_sizes_counterexample :
    (Call.mmap 18446744073709551612 3
        ∈ (alloc_shm_pixel_buffer demoXdgEnv (-1) 1 (xdg_init (fun _ => 0))).2.trace ∧
      (18446744073709551612 : Int) ≠ (-1) * 1 * 4) ∧
    (Call.mmap 0 3
        ∈ (alloc_shm_pixel_buffer demoXdgEnv 65536 65536 (xdg_init (fun _ => 0))).2.trace ∧
      (0 : Int) ≠ 65536 * 65536 * 4) ∧
    (Call.wl_shm_pool_create_buffer 50 0 1073741824 0 0
        ∈ (alloc_shm_pixel_buffer demoXdgEnv 1073741824 0 (xdg_init (fun _ => 0))).2.trace ∧
      (0 : Int) ≠ 1073741824 * 4) := by
  decide

/-! ### Truncation failure -/

/-- C6, the failing run: `shm_open` returns descriptor `3` and `ftruncate`
fails. `open_shm_file` closes the descriptor and still returns `3`, so
`alloc_shm_pixel_buffer` goes on to `mmap` and `wl_shm_create_pool` on the
closed descriptor; `os_create_anonymous_file` on the same outcomes returns
`-1` and `create_buffer` makes neither call. -/
theorem open_shm_file_truncate_failure :
    truncateFailsEnv.ftruncate < 0 ∧
    (open_shm_file truncateFailsEnv 691200 (xdg_init (fun _ => 0))).1 = 3 ∧
    (alloc_shm_pixel_buffer truncateFailsEnv 480 360 (xdg_init (fun _ => 0))).2.trace
      = [.getpid, .clock_gettime, .asprintf, .shm_open, .ftruncate 3 691200, .close 3,
         .shm_unlink, .free, .mmap 691200 3, .wl_shm_create_pool 0 3 691200,
         .wl_shm_pool_create_buffer 50 0 480 360 1920, .close 3] ∧
    (os_create_anonymous_file { demoP3Env with ftruncate := -1 } 691200
        (p3_init (fun _ => 0))).1 = -1 ∧
    (create_buffer { demoP3Env with ftruncate := -1 } (p3_init (fun _ => 0))).state.trace
      = [.getenv "XDG_RUNTIME_DIR", .malloc, .mkostemp, .unlink, .free,
         .ftruncate 3 691200, .close 3, .exit 1] := by
  decide

theorem os_create_anonymous_file_truncate_failure (env : P3Env) (size : Int) (s : P3State)
    (h : env.ftruncate < 0) : (os_create_anonymous_file env size s).1 < 0 := by
  unfold os_create_anonymous_file create_tmpfile_cloexec
  simp only [P3State.call]
  cases hx : env.xdg_runtime_dir with
  | none => simp
  | some path =>
    by_cases hm : env.malloc = 0
    · simp [hm]
    · by_cases hf : env.mkostemp ≥ 0
      · have hf' : ¬ env.mkostemp < 0 := by omega
        simp [hm, hf, hf', h]
      · have hf' : env.mkostemp < 0 := by omega
        simp [hm, hf, hf']

theorem open_shm_file_returns_descriptor (env : XdgEnv) (size : Int) (s : XdgState)
    (ha : env.asprintf ≠ -1) : (open_shm_file env size s).1 = env.shm_open := by
  unfold open_shm_file
  simp [ha]

/-! ### Traces only grow -/

theorem p3_call_trace (s : P3State) (c : Call) : (s.call c).trace = s.trace ++ [c] := rfl

theorem xdg_call_trace (s : XdgState) (c : Call) : (s.call c).trace = s.trace ++ [c] := rfl

theorem p1_call_trace (s : P1State) (c : Call) : (s.call c).trace = s.trace ++ [c] := rfl

theorem p3_handler_calls (env : P3Env) (gs : List Global) :
    ∀ s : P3State, ∃ made, (gs.foldl (global_registry_handler env) s).trace = s.trace ++ made ∧
      ∀ c ∈ made, c.isBinding = true := by
  induction gs with
  | nil => intro s; exact ⟨[], by simp, by simp⟩
  | cons g t ih =>
    intro s
    simp only [List.foldl_cons]
    obtain ⟨made, h1, h2⟩ := ih (global_registry_handler env s g)
    have hstep : ∃ m0, (global_registry_handler env s g).trace = s.trace ++ m0 ∧
        ∀ c ∈ m0, c.isBinding = true := by
      unfold global_registry_handler
      split
      · exact ⟨[_], rfl, by simp [Call.isBinding]⟩
      · split
        · exact ⟨[_], rfl, by simp [Call.isBinding]⟩
        · split
          · exact ⟨[.wl_registry_bind g.name "wl_shm", .wl_shm_add_listener (env.bind g.name)],
              by simp [P3State.call], by simp [Call.isBinding]⟩
          · exact ⟨[], by simp, by simp⟩
    obtain ⟨m0, h3, h4⟩ := hstep
    refine ⟨m0 ++ made, by rw [h1, h3, List.append_assoc], ?_⟩
    intro c hc
    rcases List.mem_append.1 hc with h | h
    · exact h4 c h
    · exact h2 c h

theorem xdg_handler_calls (env : XdgEnv) (gs : List Global) :
    ∀ s : XdgState, ∃ made, (gs.foldl (handle_notify_global env) s).trace = s.trace ++ made ∧
      ∀ c ∈ made, c.isBinding = true := by
  induction gs with
  | nil => intro s; exact ⟨[], by simp, by simp⟩
  | cons g t ih =>
    intro s
    simp only [List.foldl_cons]
    obtain ⟨made, h1, h2⟩ := ih (handle_notify_global env s g)
    have hstep : ∃ m0, (handle_notify_global env s g).trace = s.trace ++ m0 ∧
        ∀ c ∈ m0, c.isBinding = true := by
      unfold handle_notify_global
      split
      · exact ⟨[_], rfl, by simp [Call.isBinding]⟩
      · split
        · exact ⟨[_], rfl, by simp [Call.isBinding]⟩
        · split
          · exact ⟨[_], rfl, by simp [Call.isBinding]⟩
          · exact ⟨[], by simp, by simp⟩
    obtain ⟨m0, h3, h4⟩ := hstep
    refine ⟨m0 ++ made, by rw [h1, h3, List.append_assoc], ?_⟩
    intro c hc
    rcases List.mem_append.1 hc with h | h
    · exact h4 c h
    · exact h2 c h

theorem p1_handler_calls (env : P1Env) (gs : List Global) :
    ∀ s : P1State, ∃ made, (gs.foldl (p1_global_registry_handler env) s).trace
        = s.trace ++ made ∧ ∀ c ∈ made, c.isBinding = true := by
  induction gs with
  | nil => intro s; exact ⟨[], by simp, by simp⟩
  | cons g t ih =>
    intro s
    simp only [List.foldl_cons]
    obtain ⟨made, h1, h2⟩ := ih (p1_global_registry_handler env s g)
    have hstep : ∃ m0, (p1_global_registry_handler env s g).trace = s.trace ++ m0 ∧
        ∀ c ∈ m0, c.isBinding = true := by
      unfold p1_global_registry_handler
      split
      · exact ⟨[_], rfl, by simp [Call.isBinding]⟩
      · exact ⟨[], by simp, by simp⟩
    obtain ⟨m0, h3, h4⟩ := hstep
    refine ⟨m0 ++ made, by rw [h1, h3, List.append_assoc], ?_⟩
    intro c hc
    rcases List.mem_append.1 hc with h | h
    · exact h4 c h
    · exact h2 c h

theorem skeleton_of_bindings (made : List Call) (h : ∀ c ∈ made, c.isBinding = true) :
    handshakeSkeleton made = [] := by
  unfold handshakeSkeleton
  rw [List.filter_eq_nil_iff]
  intro c hc
  have hb := h c hc
  cases c <;> simp_all [Call.isBinding, Call.isDependent, Call.isCreation]

theorem skeleton_append (a b : List Call) :
    handshakeSkeleton (a ++ b) = handshakeSkeleton a ++ handshakeSkeleton b := by
  unfold handshakeSkeleton
  exact List.filter_append a b

theorem p3_handshake_trace (env : P3Env) (s : P3State) :
    ∃ b1 b2, (p3_handshake env s).trace
        = s.trace ++ ([.wl_display_get_registry, .wl_registry_add_listener, .wl_display_dispatch]
            ++ b1 ++ [.wl_display_roundtrip] ++ b2) ∧
      (∀ c ∈ b1, c.isBinding = true) ∧ (∀ c ∈ b2, c.isBinding = true) := by
  unfold p3_handshake
  obtain ⟨b1, h1, hb1⟩ := p3_handler_calls env env.dispatchGlobals
    (((s.call .wl_display_get_registry).call .wl_registry_add_listener).call .wl_display_dispatch)
  obtain ⟨b2, h2, hb2⟩ := p3_handler_calls env env.roundtripGlobals
    ((env.dispatchGlobals.foldl (global_registry_handler env)
      (((s.call .wl_display_get_registry).call .wl_registry_add_listener).call
        .wl_display_dispatch)).call .wl_display_roundtrip)
  refine ⟨b1, b2, ?_, hb1, hb2⟩
  simp only [] at h2 ⊢
  rw [h2, p3_call_trace, h1]
  simp [p3_call_trace]

theorem xdg_handshake_trace (env : XdgEnv) (s : XdgState) :
    ∃ b1 b2, (xdg_handshake env s).trace
        = s.trace ++ ([.wl_display_get_registry, .wl_registry_add_listener, .wl_display_roundtrip]
            ++ b1 ++ [.wl_display_dispatch] ++ b2) ∧
      (∀ c ∈ b1, c.isBinding = true) ∧ (∀ c ∈ b2, c.isBinding = true) := by
  unfold xdg_handshake
  obtain ⟨b1, h1, hb1⟩ := xdg_handler_calls env env.roundtripGlobals
    (((s.call .wl_display_get_registry).call .wl_registry_add_listener).call .wl_display_roundtrip)
  obtain ⟨b2, h2, hb2⟩ := xdg_handler_calls env env.dispatchGlobals
    ((env.roundtripGlobals.foldl (handle_notify_global env)
      (((s.call .wl_display_get_registry).call .wl_registry_add_listener).call
        .wl_display_roundtrip)).call .wl_display_dispatch)
  refine ⟨b1, b2, ?_, hb1, hb2⟩
  simp only [] at h2 ⊢
  rw [h2, xdg_call_trace, h1]
  simp [xdg_call_trace]

theorem p1_handshake_trace (env : P1Env) (s : P1State) :
    ∃ b1 b2, (p1_handshake env s).trace
        = s.trace ++ ([.wl_display_get_registry, .wl_registry_add_listener, .wl_display_dispatch]
            ++ b1 ++ [.wl_display_roundtrip] ++ b2) ∧
      (∀ c ∈ b1, c.isBinding = true) ∧ (∀ c ∈ b2, c.isBinding = true) := by
  unfold p1_handshake
  obtain ⟨b1, h1, hb1⟩ := p1_handler_calls env env.dispatchGlobals
    (((s.call .wl_display_get_registry).call .wl_registry_add_listener).call .wl_display_dispatch)
  obtain ⟨b2, h2, hb2⟩ := p1_handler_calls env env.roundtripGlobals
    ((env.dispatchGlobals.foldl (p1_global_registry_handler env)
      (((s.call .wl_display_get_registry).call .wl_registry_add_listener).call
        .wl_display_dispatch)).call .wl_display_roundtrip)
  refine ⟨b1, b2, ?_, hb1, hb2⟩
  simp only [] at h2 ⊢
  rw [h2, p1_call_trace, h1]
  simp [p1_call_trace]

theorem foldl_extends {σ β : Type} (tr : σ → List Call) (f : σ → β → σ)
    (h : ∀ s b, tr s <+: tr (f s b)) : ∀ (l : List β) (s : σ), tr s <+: tr (l.foldl f s) := by
  intro l
  induction l with
  | nil => intro s; exact List.prefix_refl _
  | cons b t ih => intro s; exact (h s b).trans (ih (f s b))

theorem redraw_trace (env : P3Env) (s : P3State) :
    (redraw env s).trace = s.trace ++
      [.wl_callback_destroy s.frame_callback, .wl_surface_damage s.surface 0 0 WIDTH HEIGHT,
       .wl_surface_frame s.surface, .wl_surface_attach s.surface s.buffer 0 0,
       .wl_callback_add_listener (env.frame (s.trace.length + 2)),
       .wl_surface_commit s.surface] := by
  simp [redraw, paint, P3State.call]

theorem p3_deliver_extends (env : P3Env) (s : P3State) (e : P3Event) :
    s.trace <+: (p3_deliver env s e).trace := by
  cases e with
  | frame_done =>
    show s.trace <+: (redraw env s).trace
    rw [redraw_trace]; exact List.prefix_append _ _
  | ping serial => exact List.prefix_append _ _
  | configure => exact List.prefix_refl _
  | popup_done => exact List.prefix_refl _
  | format => exact List.prefix_refl _

theorem p3_loop_extends (env : P3Env) (s : P3State) : s.trace <+: (p3_loop env s).trace := by
  unfold p3_loop
  rw [p3_call_trace]
  refine List.IsPrefix.trans ?_ (List.prefix_append _ _)
  apply foldl_extends P3State.trace
  intro s evs
  refine List.IsPrefix.trans ?_
    (foldl_extends P3State.trace (p3_deliver env) (p3_deliver_extends env) evs _)
  exact List.prefix_append _ _

theorem create_buffer_extends (env : P3Env) (s : P3State) :
    s.trace <+: (create_buffer env s).state.trace := by
  obtain ⟨made, h, _⟩ := create_buffer_calls env s
  rw [h]; exact List.prefix_append _ _

theorem create_window_extends (env : P3Env) (s : P3State) :
    s.trace <+: (create_window env s).state.trace := by
  have hb := create_buffer_extends env s
  unfold create_window
  cases hcb : create_buffer env s with
  | exit status s' =>
    rw [hcb] at hb
    exact hb
  | ret buf s' =>
    rw [hcb] at hb
    simp only [Run.state, P3State.call] at hb ⊢
    exact hb.trans (by simp)

theorem p3_present_extends (env : P3Env) (s : P3State) :
    s.trace <+: (p3_present env s).state.trace := by
  have h := create_window_extends env s
  unfold p3_present
  cases hcw : create_window env s with
  | exit status s' =>
    rw [hcw] at h
    exact h
  | ret u s' =>
    rw [hcw] at h
    simp only [Run.state, P3State.call] at h ⊢
    have h2 : s'.trace <+: (redraw env s').trace := by
      rw [redraw_trace]; exact List.prefix_append _ _
    have h3 := p3_loop_extends env (redraw env s')
    exact ((h.trans h2).trans h3).trans (by simp)

theorem p3_after_handshake_extends (env : P3Env) (s : P3State) :
    s.trace <+: (p3_after_handshake env s).state.trace := by
  unfold p3_after_handshake
  simp only []
  split
  · simp [Run.state, P3State.call]
  · split
    · simp [Run.state, P3State.call]
    · split
      · simp [Run.state, P3State.call]
      · split
        · simp [Run.state, P3State.call]
        · exact List.IsPrefix.trans (by simp [P3State.call]) (p3_present_extends env _)

theorem alloc_extends (env : XdgEnv) (w h : Int) (s : XdgState) :
    s.trace <+: (alloc_shm_pixel_buffer env w h s).2.trace := by
  obtain ⟨made, hm, _⟩ := alloc_calls env w h s
  rw [hm]; exact List.prefix_append _ _

theorem xdg_loop_extends (env : XdgEnv) (s : XdgState) : s.trace <+: (xdg_loop env s).trace := by
  unfold xdg_loop
  rw [xdg_call_trace]
  refine List.IsPrefix.trans ?_ (List.prefix_append _ _)
  apply foldl_extends XdgState.trace
  intro s evs
  refine List.IsPrefix.trans ?_ (foldl_extends XdgState.trace (xdg_deliver env) ?_ evs _)
  · exact List.prefix_append _ _
  · intro s e
    cases e with
    | configure serial => exact List.prefix_append _ _

theorem xdg_present_extends (env : XdgEnv) (s : XdgState) :
    s.trace <+: (xdg_present env s).state.trace := by
  have h := alloc_extends env 480 360 s
  unfold xdg_present
  simp only []
  split
  · next s' hal =>
    rw [hal] at h
    simp only [Run.state, XdgState.call] at h ⊢
    exact h.trans (by simp)
  · next buf s' hal =>
    rw [hal] at h
    have h3 := xdg_loop_extends env
      ((({ s' with data := draw buf s'.data } : XdgState).call
        (.wl_surface_attach env.surface buf.wl_buffer 0 0)).call
        (.wl_surface_commit env.surface))
    simp only [Run.state, XdgState.call] at h h3 ⊢
    exact ((h.trans (by simp)).trans h3).trans (by simp)

theorem xdg_after_handshake_extends (env : XdgEnv) (s : XdgState) :
    s.trace ++ [.wl_compositor_create_surface s.wl_compositor]
      <+: (xdg_after_handshake env s).state.trace := by
  unfold xdg_after_handshake
  simp only []
  split
  · simp [Run.state, XdgState.call]
  · split
    · simp [Run.state, XdgState.call]
    · split
      · simp [Run.state, XdgState.call]
      · exact List.IsPrefix.trans (by simp [XdgState.call]) (xdg_present_extends env _)

/-! ### Order of the handshake -/

theorem xdg_main_extends (env : XdgEnv) (mem : Words) (h : env.display ≠ 0) :
    (xdg_handshake env (xdg_connected mem)).trace
        ++ [.wl_compositor_create_surface (xdg_handshake env (xdg_connected mem)).wl_compositor]
      <+: (xdg_main env mem).state.trace := by
  unfold xdg_main
  simp only [h, if_false]
  exact xdg_after_handshake_extends env _

theorem p3_after_handshake_starts (env : P3Env) (s : P3State) :
    s.trace ++ [.null_test "compositor"] <+: (p3_after_handshake env s).state.trace := by
  unfold p3_after_handshake
  simp only []
  split
  · simp [Run.state, P3State.call]
  · split
    · simp [Run.state, P3State.call]
    · split
      · simp [Run.state, P3State.call]
      · split
        · simp [Run.state, P3State.call]
        · exact List.IsPrefix.trans (by simp [P3State.call]) (p3_present_extends env _)

theorem p1_main_shape (env : P1Env) (h : env.display ≠ 0) :
    ∃ b1 b2 rest, (p1_main env).state.trace
        = [.wl_display_connect, .wl_display_get_registry, .wl_registry_add_listener,
           .wl_display_dispatch] ++ b1 ++ [.wl_display_roundtrip] ++ b2
          ++ [.null_test "compositor"] ++ rest ∧
      (∀ c ∈ b1, c.isBinding = true) ∧ (∀ c ∈ b2, c.isBinding = true) := by
  obtain ⟨b1, b2, ht, h1, h2⟩ := p1_handshake_trace env p1_connected
  have hconn : p1_connected.trace = [.wl_display_connect] := rfl
  have hpre : (p1_handshake env p1_connected).trace ++ [.null_test "compositor"]
      <+: (p1_main env).state.trace := by
    unfold p1_main
    simp only [h, if_false]
    split <;> simp [Run.state, P1State.call]
  obtain ⟨rest, hrest⟩ := hpre
  refine ⟨b1, b2, rest, ?_, h1, h2⟩
  rw [← hrest, ht, hconn]
  simp

theorem p3_main_shape (env : P3Env) (mem : Words) (h : env.display ≠ 0) :
    ∃ b1 b2 rest, (p3_main env mem).state.trace
        = [.wl_display_connect, .wl_display_get_registry, .wl_registry_add_listener,
           .wl_display_dispatch] ++ b1 ++ [.wl_display_roundtrip] ++ b2
          ++ [.null_test "compositor"] ++ rest ∧
      (∀ c ∈ b1, c.isBinding = true) ∧ (∀ c ∈ b2, c.isBinding = true) := by
  obtain ⟨b1, b2, ht, h1, h2⟩ := p3_handshake_trace env (p3_connected env mem)
  have hconn : (p3_connected env mem).trace = [.wl_display_connect] := rfl
  have hpre : (p3_handshake env (p3_connected env mem)).trace ++ [.null_test "compositor"]
      <+: (p3_main env mem).state.trace := by
    unfold p3_main
    have hd : (p3_connected env mem).display = env.display := rfl
    simp only [hd, h, if_false]
    exact p3_after_handshake_starts env _
  obtain ⟨rest, hrest⟩ := hpre
  refine ⟨b1, b2, rest, ?_, h1, h2⟩
  rw [← hrest, ht, hconn]
  simp

theorem xdg_main_shape (env : XdgEnv) (mem : Words) (h : env.display ≠ 0) :
    ∃ b1 b2 rest, (xdg_main env mem).state.trace
        = [.wl_display_connect, .wl_display_get_registry, .wl_registry_add_listener,
           .wl_display_roundtrip] ++ b1 ++ [.wl_display_dispatch] ++ b2
          ++ [.wl_compositor_create_surface
                (xdg_handshake env (xdg_connected mem)).wl_compositor] ++ rest ∧
      (∀ c ∈ b1, c.isBinding = true) ∧ (∀ c ∈ b2, c.isBinding = true) := by
  obtain ⟨b1, b2, ht, h1, h2⟩ := xdg_handshake_trace env (xdg_connected mem)
  have hconn : (xdg_connected mem).trace = [.wl_display_connect] := rfl
  obtain ⟨rest, hrest⟩ := xdg_main_extends env mem h
  refine ⟨b1, b2, rest, ?_, h1, h2⟩
  rw [← hrest, ht, hconn]
  simp

theorem skeleton_of_shape (a b t : Call) (b1 b2 rest : List Call)
    (ha : handshakeSkeleton [a] = [a]) (hb : handshakeSkeleton [b] = [b])
    (ht : handshakeSkeleton [t] = [t])
    (h1 : ∀ c ∈ b1, c.isBinding = true) (h2 : ∀ c ∈ b2, c.isBinding = true) :
    (handshakeSkeleton ([.wl_display_connect, .wl_display_get_registry,
        .wl_registry_add_listener, a] ++ b1 ++ [b] ++ b2 ++ [t] ++ rest)).take 3
      = [a, b, t] := by
  have hpre : handshakeSkeleton [.wl_display_connect, .wl_display_get_registry,
      .wl_registry_add_listener, a] = [a] := by
    have hsplit : [Call.wl_display_connect, .wl_display_get_registry,
        .wl_registry_add_listener, a]
        = [.wl_display_connect, .wl_display_get_registry, .wl_registry_add_listener] ++ [a] :=
      rfl
    rw [hsplit, skeleton_append, ha]
    rfl
  simp only [skeleton_append, skeleton_of_bindings b1 h1, skeleton_of_bindings b2 h2, hpre,
    hb, ht]
  rfl

/-- C8 (as amended): in every Wayland flow in which the connection succeeds,
the calls up to the first step that depends on a capability are: the
connection, `wl_display_get_registry`, `wl_registry_add_listener`, one handshake
call, the bindings its registry events cause, the other handshake call, the
bindings its registry events cause, and only then the first capability test
(`p1.cpp`, `p3.cpp`) or creation call (`xdg_wm.cpp`). So exactly one dispatch
and exactly one round-trip precede every dependent step. In `p1.cpp` and
`p3.cpp` the dispatch comes first and the round-trip second; in `xdg_wm.cpp`
the round-trip comes first and the dispatch second. -/
theorem handshake_order :
    (∀ env : P1Env, env.display ≠ 0 →
      (∃ b1 b2 rest, (p1_main env).state.trace
          = [.wl_display_connect, .wl_display_get_registry, .wl_registry_add_listener,
             .wl_display_dispatch] ++ b1 ++ [.wl_display_roundtrip] ++ b2
            ++ [.null_test "compositor"] ++ rest ∧
        (∀ c ∈ b1, c.isBinding = true) ∧ (∀ c ∈ b2, c.isBinding = true)) ∧
      (handshakeSkeleton (p1_main env).state.trace).take 3
        = [.wl_display_dispatch, .wl_display_roundtrip, .null_test "compositor"]) ∧
    (∀ (env : P3Env) (mem : Words), env.display ≠ 0 →
      (∃ b1 b2 rest, (p3_main env mem).state.trace
          = [.wl_display_connect, .wl_display_get_registry, .wl_registry_add_listener,
             .wl_display_dispatch] ++ b1 ++ [.wl_display_roundtrip] ++ b2
            ++ [.null_test "compositor"] ++ rest ∧
        (∀ c ∈ b1, c.isBinding = true) ∧ (∀ c ∈ b2, c.isBinding = true)) ∧
      (handshakeSkeleton (p3_main env mem).state.trace).take 3
        = [.wl_display_dispatch, .wl_display_roundtrip, .null_test "compositor"]) ∧
    (∀ (env : XdgEnv) (mem : Words), env.display ≠ 0 →
      (∃ b1 b2 rest, (xdg_main env mem).state.trace
          = [.wl_display_connect, .wl_display_get_registry, .wl_registry_add_listener,
             .wl_display_roundtrip] ++ b1 ++ [.wl_display_dispatch] ++ b2
            ++ [.wl_compositor_create_surface
                  (xdg_handshake env (xdg_connected mem)).wl_compositor] ++ rest ∧
        (∀ c ∈ b1, c.isBinding = true) ∧ (∀ c ∈ b2, c.isBinding = true)) ∧
      (handshakeSkeleton (xdg_main env mem).state.trace).take 3
        = [.wl_display_roundtrip, .wl_display_dispatch,
           .wl_compositor_create_surface
              (xdg_handshake env (xdg_connected mem)).wl_compositor]) := by
  refine ⟨?_, ?_, ?_⟩
  · intro env h
    obtain ⟨b1, b2, rest, ht, h1, h2⟩ := p1_main_shape env h
    refine ⟨⟨b1, b2, rest, ht, h1, h2⟩, ?_⟩
    rw [ht]
    exact skeleton_of_shape _ _ _ b1 b2 rest (by decide) (by decide) (by decide) h1 h2
  · intro env mem h
    obtain ⟨b1, b2, rest, ht, h1, h2⟩ := p3_main_shape env mem h
    refine ⟨⟨b1, b2, rest, ht, h1, h2⟩, ?_⟩
    rw [ht]
    exact skeleton_of_shape _ _ _ b1 b2 rest (by decide) (by decide) (by decide) h1 h2
  · intro env mem h
    obtain ⟨b1, b2, rest, ht, h1, h2⟩ := xdg_main_shape env mem h
    refine ⟨⟨b1, b2, rest, ht, h1, h2⟩, ?_⟩
    rw [ht]
    exact skeleton_of_shape _ _ _ b1 b2 rest (by decide) (by decide)
      (by simp [handshakeSkeleton, Call.isDependent, Call.isCreation]) h1 h2

/-- C8, instance: the three programs in environments where every call
succeeds. -/
theorem handshake_order_witness :
    demoP1Env.display ≠ 0 ∧ demoP3Env.display ≠ 0 ∧ demoXdgEnv.display ≠ 0 ∧
    (handshakeSkeleton (p1_main demoP1Env).state.trace).take 3
      = [.wl_display_dispatch, .wl_display_roundtrip, .null_test "compositor"] ∧
    (handshakeSkeleton (p3_main demoP3Env (fun _ => 0)).state.trace).take 3
      = [.wl_display_dispatch, .wl_display_roundtrip, .null_test "compositor"] ∧
    (handshakeSkeleton (xdg_main demoXdgEnv (fun _ => 0)).state.trace).take 3
      = [.wl_display_roundtrip, .wl_display_dispatch, .wl_compositor_create_surface 11] :=
  ⟨by decide, by decide, by decide,
    (handshake_order.1 demoP1Env (by decide)).2,
    (handshake_order.2.1 demoP3Env (fun _ => 0) (by decide)).2,
    (handshake_order.2.2 demoXdgEnv (fun _ => 0) (by decide)).2⟩

/-- C8, counterexample to the claim as stated: in `xdg_wm.cpp`, with every call
succeeding, the calls after the listener is installed start with the
round-trip, and the dispatch follows it. -/
theorem handshake_order_counterexample :
    ((xdg_main demoXdgEnv (fun _ => 0)).state.trace).take 8
      = [.wl_display_connect, .wl_display_get_registry, .wl_registry_add_listener,
         .wl_display_roundtrip, .wl_registry_bind 1 "wl_compositor",
         .wl_registry_bind 2 "wl_shm", .wl_registry_bind 3 "xdg_wm_base",
         .wl_display_dispatch] ∧
    (handshakeSkeleton (xdg_main demoXdgEnv (fun _ => 0)).state.trace).take 2
      ≠ [.wl_display_dispatch, .wl_display_roundtrip] := by
  decide

/-! ### Capability tests -/

theorem binding_not_creation (c : Call) (h : c.isBinding = true) : c.isCreation = false := by
  cases c <;> simp_all [Call.isBinding, Call.isCreation]

theorem p3_handshake_no_creation (env : P3Env) (mem : Words) :
    ∀ c ∈ (p3_handshake env (p3_connected env mem)).trace, c.isCreation = false := by
  obtain ⟨b1, b2, ht, h1, h2⟩ := p3_handshake_trace env (p3_connected env mem)
  intro c hc
  rw [ht] at hc
  have hconn : (p3_connected env mem).trace = [.wl_display_connect] := rfl
  rw [hconn] at hc
  simp only [List.mem_append, List.mem_cons, List.mem_singleton, List.not_mem_nil,
    or_false] at hc
  rcases hc with rfl | (((rfl | rfl | rfl) | hb) | rfl) | hb
  · rfl
  · rfl
  · rfl
  · rfl
  · exact binding_not_creation c (h1 c hb)
  · rfl
  · exact binding_not_creation c (h2 c hb)

theorem p3_tests_before_use :
    (∀ (env : P3Env) (mem : Words), env.display ≠ 0 →
      (p3_handshake env (p3_connected env mem)).compositor = 0 →
      (p3_main env mem).status = some 1 ∧
      ∀ c ∈ (p3_main env mem).state.trace, c.isCreation = false) ∧
    (∀ (env : P3Env) (mem : Words), env.display ≠ 0 →
      (p3_handshake env (p3_connected env mem)).compositor ≠ 0 →
      (p3_handshake env (p3_connected env mem)).shell = 0 →
      (p3_main env mem).status = some 1 ∧
      Call.wl_compositor_create_surface (p3_handshake env (p3_connected env mem)).compositor
        ∈ (p3_main env mem).state.trace ∧
      ∀ c ∈ (p3_main env mem).state.trace, c.isCreation = true →
        c = .wl_compositor_create_surface
              (p3_handshake env (p3_connected env mem)).compositor) := by
  refine ⟨?_, ?_⟩
  · intro env mem hd hc
    have hno := p3_handshake_no_creation env mem
    have hdisp : (p3_connected env mem).display = env.display := rfl
    unfold p3_main p3_after_handshake
    simp only [hdisp, hd, if_false, P3State.call, hc, if_true, Run.status, Run.state]
    refine ⟨trivial, ?_⟩
    intro c hmem
    simp only [List.mem_append, List.mem_singleton] at hmem
    rcases hmem with (h | rfl) | rfl
    · exact hno c h
    · rfl
    · rfl
  · intro env mem hd hc hs
    have hno := p3_handshake_no_creation env mem
    have hdisp : (p3_connected env mem).display = env.display := rfl
    unfold p3_main p3_after_handshake
    by_cases hsurf : env.surface = 0
    · simp only [hdisp, hd, if_false, P3State.call, hc, hsurf, if_true, Run.status, Run.state]
      refine ⟨trivial, by simp, ?_⟩
      intro c hmem hcr
      simp only [List.mem_append, List.mem_singleton] at hmem
      rcases hmem with ((h | rfl) | rfl) | rfl
      · rw [hno c h] at hcr; cases hcr
      · cases hcr
      · rfl
      · cases hcr
    · simp only [hdisp, hd, if_false, P3State.call, hc, hs, hsurf, if_true, Run.status,
        Run.state]
      refine ⟨trivial, by simp, ?_⟩
      intro c hmem hcr
      simp only [List.mem_append, List.mem_singleton] at hmem
      rcases hmem with (((h | rfl) | rfl) | rfl) | rfl
      · rw [hno c h] at hcr; cases hcr
      · cases hcr
      · rfl
      · cases hcr
      · cases hcr

/-- C5, the failing runs, each shown up to the call that should not have been
reached. (1) `xdg_wm.cpp`, no `xdg_wm_base` announced: `xdg_wm_base` is null
after the handshake, no test is made, the surface is created and
`xdg_wm_base_get_xdg_surface` is called on the null capability. (2)
`xdg_wm.cpp`, nothing announced: `wl_compositor_create_surface` is called on the
null compositor. (3) `p3.cpp`, only the compositor announced: the shell is
tested after `wl_compositor_create_surface`, so the exit with status 1 comes
after a creation call. (4) `p3.cpp`, no `wl_shm` announced: `shm` is never
tested and `wl_shm_create_pool` is called on the null capability. -/
theorem missing_capability_tests :
    ((xdg_handshake noBaseEnv (xdg_connected (fun _ => 0))).xdg_wm_base = 0 ∧
      ((xdg_main noBaseEnv (fun _ => 0)).state.trace).take 9
        = [.wl_display_connect, .wl_display_get_registry, .wl_registry_add_listener,
           .wl_display_roundtrip, .wl_registry_bind 1 "wl_compositor",
           .wl_registry_bind 2 "wl_shm", .wl_display_dispatch,
           .wl_compositor_create_surface 11, .xdg_wm_base_get_xdg_surface 0 20]) ∧
    ((xdg_handshake noGlobalsEnv (xdg_connected (fun _ => 0))).wl_compositor = 0 ∧
      ((xdg_main noGlobalsEnv (fun _ => 0)).state.trace).take 6
        = [.wl_display_connect, .wl_display_get_registry, .wl_registry_add_listener,
           .wl_display_roundtrip, .wl_display_dispatch,
           .wl_compositor_create_surface 0]) ∧
    ((p3_handshake compositorOnlyEnv (p3_connected compositorOnlyEnv (fun _ => 0))).shell = 0 ∧
      (p3_main compositorOnlyEnv (fun _ => 0)).state.trace
        = [.wl_display_connect, .wl_display_get_registry, .wl_registry_add_listener,
           .wl_display_dispatch, .wl_registry_bind 1 "wl_compositor", .wl_display_roundtrip,
           .null_test "compositor", .wl_compositor_create_surface 11, .null_test "shell",
           .exit 1]) ∧
    ((p3_handshake noShmEnv (p3_connected noShmEnv (fun _ => 0))).shm = 0 ∧
      ((p3_main noShmEnv (fun _ => 0)).state.trace).take 23
        = [.wl_display_connect, .wl_display_get_registry, .wl_registry_add_listener,
           .wl_display_dispatch, .wl_registry_bind 1 "wl_compositor",
           .wl_registry_bind 3 "wl_shell", .wl_display_roundtrip,
           .null_test "compositor", .wl_compositor_create_surface 11, .null_test "shell",
           .wl_shell_get_shell_surface 13 20, .wl_shell_surface_set_toplevel 21,
           .wl_shell_surface_add_listener 21, .wl_surface_frame 20,
           .wl_callback_add_listener 113, .getenv "XDG_RUNTIME_DIR", .malloc, .mkostemp,
           .unlink, .free, .ftruncate 3 691200, .mmap 691200 3,
           .wl_shm_create_pool 0 3 691200]) := by
  decide

/-! ### The bitmap flow -/

theorem rect_hit {α : Type} (x0 x1 y0 y1 w i : Int) (v : α) (fb : Int → α)
    (hex : ∃ x y, x0 ≤ x ∧ x < x1 ∧ y0 ≤ y ∧ y < y1 ∧ iadd (imul y w) x = i) :
    forLoop y0 y1 (fun y fb =>
      forLoop x0 x1 (fun x fb => store fb (iadd (imul y w) x) v) fb) fb i = v := by
  apply forLoop_hit y0 y1 i v _
    (fun y => ∃ x, x0 ≤ x ∧ x < x1 ∧ iadd (imul y w) x = i) fb
  · intro y _ _ m'
    constructor
    · intro hh
      apply forLoop_hit x0 x1 i v _ (fun x => iadd (imul y w) x = i) m' _ hh
      intro x _ _ m''
      rw [store_apply]
      constructor
      · intro hk; rw [if_pos hk.symm]
      · intro hk; rw [if_neg (fun h => hk h.symm)]
    · intro hh
      apply forLoop_miss
      intro x hx0 hx1 m''
      rw [store_apply, if_neg (fun h => hh ⟨x, hx0, hx1, h.symm⟩)]
  · obtain ⟨x, y, h0, h1, h2, h3, h4⟩ := hex
    exact ⟨y, h2, h3, x, h0, h1, h4⟩

theorem rect_miss {α : Type} (x0 x1 y0 y1 w i : Int) (v : α) (fb : Int → α)
    (hno : ∀ x y, x0 ≤ x → x < x1 → y0 ≤ y → y < y1 → iadd (imul y w) x ≠ i) :
    forLoop y0 y1 (fun y fb =>
      forLoop x0 x1 (fun x fb => store fb (iadd (imul y w) x) v) fb) fb i = fb i := by
  apply forLoop_miss
  intro y hy0 hy1 m'
  apply forLoop_miss
  intro x hx0 hx1 m''
  rw [store_apply, if_neg (fun h => hno x y hx0 hx1 hy0 hy1 h.symm)]

theorem fb_index_exact (x y : Int) (hx0 : 0 ≤ x) (hx1 : x < 800) (hy0 : 0 ≤ y)
    (hy1 : y < 600) : iadd (imul y INITIAL_WIDTH) x = y * 800 + x := by
  unfold iadd imul INITIAL_WIDTH
  rw [wrap32_of_fits (y * 800) (by omega) (by omega)]
  exact wrap32_of_fits _ (by omega) (by omega)

theorem main_fill_first (fb0 : Framebuffer) (x y : Int)
    (hx0 : 10 ≤ x) (hx1 : x < 100) (hy0 : 10 ≤ y) (hy1 : y < 100) :
    main_fill fb0 (y * 800 + x) = some 0xFF0000FF := by
  unfold main_fill
  rw [rect_miss 150 200 150 200 INITIAL_WIDTH]
  · apply rect_hit
    exact ⟨x, y, hx0, hx1, hy0, hy1, fb_index_exact x y (by omega) (by omega) (by omega)
      (by omega)⟩
  · intro x' y' h0 h1 h2 h3
    rw [fb_index_exact x' y' (by omega) (by omega) (by omega) (by omega)]
    omega

theorem main_fill_second (fb0 : Framebuffer) (x y : Int)
    (hx0 : 150 ≤ x) (hx1 : x < 200) (hy0 : 150 ≤ y) (hy1 : y < 200) :
    main_fill fb0 (y * 800 + x) = some 0x0000FFFF := by
  unfold main_fill
  apply rect_hit
  exact ⟨x, y, hx0, hx1, hy0, hy1, fb_index_exact x y (by omega) (by omega) (by omega)
    (by omega)⟩

theorem main_fill_elsewhere (fb0 : Framebuffer) (x y : Int)
    (hx0 : 0 ≤ x) (hx1 : x < 800)
    (h1 : ¬ (10 ≤ x ∧ x < 100 ∧ 10 ≤ y ∧ y < 100))
    (h2 : ¬ (150 ≤ x ∧ x < 200 ∧ 150 ≤ y ∧ y < 200)) :
    main_fill fb0 (y * 800 + x) = fb0 (y * 800 + x) := by
  unfold main_fill
  rw [rect_miss 150 200 150 200 INITIAL_WIDTH, rect_miss 10 100 10 100 INITIAL_WIDTH]
  · intro x' y' h0 h1' h2' h3
    rw [fb_index_exact x' y' (by omega) (by omega) (by omega) (by omega)]
    omega
  · intro x' y' h0 h1' h2' h3
    rw [fb_index_exact x' y' (by omega) (by omega) (by omega) (by omega)]
    omega

theorem blitsShow_call (F : Framebuffer) (s : WinState) (c : WinCall)
    (h : BlitsShow F s) (hc : ∀ src, c = .StretchDIBits src → src = F) :
    BlitsShow F (s.call c) := by
  refine ⟨h.1, ?_⟩
  intro d hd src hsrc
  rcases List.mem_append.1 hd with hd | hd
  · exact h.2 d hd src hsrc
  · rw [List.mem_singleton.1 hd] at hsrc
    exact hc src hsrc

theorem blitsShow_blit (F : Framebuffer) (s : WinState) (h : BlitsShow F s) :
    BlitsShow F (s.call (.StretchDIBits s.fb)) := by
  apply blitsShow_call F s _ h
  intro src hsrc
  cases hsrc
  exact h.1

theorem blitsShow_queue (F : Framebuffer) (s : WinState) (q : List Msg)
    (h : BlitsShow F s) : BlitsShow F { s with queue := q } := h

theorem blitsShow_WindowProc (F : Framebuffer) (s : WinState) (m : Msg)
    (h : BlitsShow F s) : BlitsShow F (WindowProc s m) := by
  cases m with
  | WM_QUIT => exact blitsShow_call F s _ h (fun src hsrc => by cases hsrc)
  | WM_CLOSE =>
    apply blitsShow_queue
    apply blitsShow_call _ _ _ _ (fun src hsrc => by cases hsrc)
    exact blitsShow_call F s _ h (fun src hsrc => by cases hsrc)
  | WM_DESTROY =>
    apply blitsShow_queue
    exact blitsShow_call F s _ h (fun src hsrc => by cases hsrc)
  | WM_PAINT =>
    apply blitsShow_call _ _ _ _ (fun src hsrc => by cases hsrc)
    apply blitsShow_blit
    exact blitsShow_call F s _ h (fun src hsrc => by cases hsrc)
  | other code => exact blitsShow_call F s _ h (fun src hsrc => by cases hsrc)

theorem blitsShow_loopBody (F : Framebuffer) (s : WinState) (h : BlitsShow F s) :
    BlitsShow F (loopBody s).state := by
  have hp : BlitsShow F (s.call .PeekMessage) :=
    blitsShow_call F s _ h (fun src hsrc => by cases hsrc)
  unfold loopBody
  simp only []
  cases hq : s.queue with
  | nil =>
    have hq' : (s.call .PeekMessage).queue = [] := hq
    simp only [hq', LoopStep.state]
    exact blitsShow_blit F _ hp
  | cons msg rest =>
    have hq' : (s.call .PeekMessage).queue = msg :: rest := hq
    simp only [hq']
    by_cases hm : msg = .WM_QUIT
    · simp only [hm, if_true, LoopStep.state]
      exact blitsShow_queue F _ _ hp
    · simp only [hm, if_false, LoopStep.state]
      apply blitsShow_blit
      apply blitsShow_WindowProc
      apply blitsShow_call _ _ _ _ (fun src hsrc => by cases hsrc)
      apply blitsShow_call _ _ _ _ (fun src hsrc => by cases hsrc)
      exact blitsShow_queue F _ _ hp

theorem blitsShow_messageLoop (F : Framebuffer) (arrivals : List (List Msg)) :
    ∀ s : WinState, BlitsShow F s → BlitsShow F (messageLoop arrivals s).state := by
  induction arrivals with
  | nil => intro s h; exact h
  | cons arrived later ih =>
    intro s h
    have hb := blitsShow_loopBody F { s with queue := s.queue ++ arrived }
      (blitsShow_queue F s _ h)
    unfold messageLoop
    cases hl : loopBody { s with queue := s.queue ++ arrived } with
    | stop s' =>
      rw [hl] at hb
      exact hb
    | next s' =>
      rw [hl] at hb
      exact ih s' hb

theorem blitsShow_win_main (env : WinEnv) (fb0 : Framebuffer) :
    BlitsShow (main_fill fb0) (win_main env fb0).1 := by
  have h0 : BlitsShow (main_fill fb0)
      ({ fb := main_fill fb0, queue := [], trace := [] } : WinState) :=
    ⟨rfl, fun c hc => by cases hc⟩
  have h1 := blitsShow_call _ _ .GetModuleHandle h0 (fun src hsrc => by cases hsrc)
  have h2 := blitsShow_call _ _ .RegisterClass h1 (fun src hsrc => by cases hsrc)
  have h3 := blitsShow_call _ _ .CreateWindowEx h2 (fun src hsrc => by cases hsrc)
  have h4 := blitsShow_call _ _ .GetDC h3 (fun src hsrc => by cases hsrc)
  have h5 := blitsShow_messageLoop (main_fill fb0) env.arrivals _ h4
  unfold win_main
  simp only []
  split
  · exact h2
  · split
    · exact h3
    · split
      · next s' hs' => rw [hs'] at h5; exact h5
      · next s' hs' => rw [hs'] at h5; exact h5

/-- C2: after the two fill loops, for every pixel `(x, y)` of the 800 x 600
buffer, `fb[y*800 + x]` is `0xFF0000FF` when `10 ≤ x < 100` and `10 ≤ y < 100`,
is `0x0000FFFF` when `150 ≤ x < 200` and `150 ≤ y < 200`, and otherwise holds
what it held before the fills; for the freshly allocated array the two
colours are held exactly in the two squares; and the message loop never
assigns `fb`: the framebuffer at the end, and the source of every blit of the
run, is the buffer as the fills left it. -/
theorem bitmap_rectangles (fb0 : Framebuffer) (x y : Int)
    (hx0 : 0 ≤ x) (hx1 : x < 800) (_hy0 : 0 ≤ y) (_hy1 : y < 600) :
    ((10 ≤ x ∧ x < 100 ∧ 10 ≤ y ∧ y < 100) →
      main_fill fb0 (y * 800 + x) = some 0xFF0000FF) ∧
    ((150 ≤ x ∧ x < 200 ∧ 150 ≤ y ∧ y < 200) →
      main_fill fb0 (y * 800 + x) = some 0x0000FFFF) ∧
    (¬ (10 ≤ x ∧ x < 100 ∧ 10 ≤ y ∧ y < 100) →
      ¬ (150 ≤ x ∧ x < 200 ∧ 150 ≤ y ∧ y < 200) →
      main_fill fb0 (y * 800 + x) = fb0 (y * 800 + x)) ∧
    (main_fill freshFramebuffer (y * 800 + x) = some 0xFF0000FF ↔
      (10 ≤ x ∧ x < 100 ∧ 10 ≤ y ∧ y < 100)) ∧
    (main_fill freshFramebuffer (y * 800 + x) = some 0x0000FFFF ↔
      (150 ≤ x ∧ x < 200 ∧ 150 ≤ y ∧ y < 200)) ∧
    (∀ env : WinEnv, (win_main env fb0).1.fb = main_fill fb0 ∧
      ∀ c ∈ (win_main env fb0).1.trace, ∀ src, c = .StretchDIBits src →
        src = main_fill fb0) := by
  refine ⟨?_, ?_, ?_, ?_, ?_, ?_⟩
  · intro h
    exact main_fill_first fb0 x y h.1 h.2.1 h.2.2.1 h.2.2.2
  · intro h
    exact main_fill_second fb0 x y h.1 h.2.1 h.2.2.1 h.2.2.2
  · intro h1 h2
    exact main_fill_elsewhere fb0 x y hx0 hx1 h1 h2
  · constructor
    · intro h
      by_contra h1
      by_cases h2 : 150 ≤ x ∧ x < 200 ∧ 150 ≤ y ∧ y < 200
      · rw [main_fill_second _ x y h2.1 h2.2.1 h2.2.2.1 h2.2.2.2] at h
        simp at h
      · rw [main_fill_elsewhere _ x y hx0 hx1 h1 h2] at h
        simp [freshFramebuffer] at h
    · intro h
      exact main_fill_first _ x y h.1 h.2.1 h.2.2.1 h.2.2.2
  · constructor
    · intro h
      by_contra h2
      by_cases h1 : 10 ≤ x ∧ x < 100 ∧ 10 ≤ y ∧ y < 100
      · rw [main_fill_first _ x y h1.1 h1.2.1 h1.2.2.1 h1.2.2.2] at h
        simp at h
      · rw [main_fill_elsewhere _ x y hx0 hx1 h1 h2] at h
        simp [freshFramebuffer] at h
    · intro h
      exact main_fill_second _ x y h.1 h.2.1 h.2.2.1 h.2.2.2
  · intro env
    exact blitsShow_win_main env fb0

/-- C2, instance: the pixels `(10, 10)`, `(199, 150)` and `(100, 10)` of the
freshly allocated array, and the run of `demoWinEnv`, which blits four times. -/
theorem bitmap_rectangles_witness :
    main_fill freshFramebuffer (10 * 800 + 10) = some 0xFF0000FF ∧
    main_fill freshFramebuffer (150 * 800 + 199) = some 0x0000FFFF ∧
    main_fill freshFramebuffer (10 * 800 + 100) = none ∧
    (((win_main demoWinEnv freshFramebuffer).1.trace).filter WinCall.isBlit).length = 4 ∧
    (win_main demoWinEnv freshFramebuffer).1.fb = main_fill freshFramebuffer :=
  ⟨(bitmap_rectangles freshFramebuffer 10 10 (by decide) (by decide) (by decide)
      (by decide)).1 (by decide),
    (bitmap_rectangles freshFramebuffer 199 150 (by decide) (by decide) (by decide)
      (by decide)).2.1 (by decide),
    (bitmap_rectangles freshFramebuffer 100 10 (by decide) (by decide) (by decide)
      (by decide)).2.2.1 (by decide) (by decide),
    by decide,
    ((bitmap_rectangles freshFramebuffer 0 0 (by decide) (by decide) (by decide)
      (by decide)).2.2.2.2.2 demoWinEnv).1⟩

/-- C7 (as amended): one pass of the loop retrieves at most one pending
message, the oldest. With an empty queue it blits at once; when the oldest
message is `WM_QUIT` it leaves the loop without blitting; otherwise it
dispatches that one message and blits while every other message that was
pending is still in the queue (followed by what the dispatch posted). -/
theorem loop_one_message_per_pass (s : WinState) :
    (s.queue = [] →
      ∃ s', loopBody s = .next s' ∧ s'.queue = [] ∧
        s'.trace = s.trace ++ [.PeekMessage, .StretchDIBits s.fb]) ∧
    (∀ rest, s.queue = .WM_QUIT :: rest →
      ∃ s', loopBody s = .stop s' ∧ s'.queue = rest ∧
        s'.trace = s.trace ++ [.PeekMessage]) ∧
    (∀ msg rest, s.queue = msg :: rest → msg ≠ .WM_QUIT →
      ∃ s' posted handled, loopBody s = .next s' ∧ s'.queue = rest ++ posted ∧
        s'.trace = s.trace ++ [.PeekMessage, .TranslateMessage msg, .DispatchMessage msg]
          ++ handled ++ [.StretchDIBits s.fb]) := by
  refine ⟨?_, ?_, ?_⟩
  · intro hq
    have hq' : (s.call .PeekMessage).queue = [] := hq
    have hbody : loopBody s = .next ((s.call .PeekMessage).call (.StretchDIBits s.fb)) := by
      unfold loopBody
      simp only [hq']
      rfl
    exact ⟨_, hbody, hq, by simp [WinState.call]⟩
  · intro rest hq
    have hq' : (s.call .PeekMessage).queue = .WM_QUIT :: rest := hq
    have hbody : loopBody s = .stop { s.call .PeekMessage with queue := rest } := by
      unfold loopBody
      simp only [hq', if_true]
    exact ⟨_, hbody, rfl, rfl⟩
  · intro msg rest hq hm
    have hq' : (s.call .PeekMessage).queue = msg :: rest := hq
    have hbody : loopBody s = .next
        ((WindowProc (((({ s.call .PeekMessage with queue := rest } : WinState).call
          (.TranslateMessage msg))).call (.DispatchMessage msg)) msg).call
          (.StretchDIBits s.fb)) := by
      unfold loopBody
      simp only [hq', hm, if_false]
      cases msg <;> rfl
    cases msg with
    | WM_QUIT => exact absurd rfl hm
    | WM_CLOSE =>
      exact ⟨_, [.WM_QUIT], [.DestroyWindow, .PostQuitMessage 0], hbody,
        by simp [WindowProc, WinState.call], by simp [WindowProc, WinState.call]⟩
    | WM_DESTROY =>
      exact ⟨_, [.WM_QUIT], [.PostQuitMessage 0], hbody,
        by simp [WindowProc, WinState.call], by simp [WindowProc, WinState.call]⟩
    | WM_PAINT =>
      exact ⟨_, [], [.BeginPaint, .StretchDIBits s.fb, .EndPaint], hbody,
        by simp [WindowProc, WinState.call], by simp [WindowProc, WinState.call]⟩
    | other code =>
      exact ⟨_, [], [.DefWindowProc (.other code)], hbody,
        by simp [WindowProc, WinState.call], by simp [WindowProc, WinState.call]⟩

/-- C7, instance: the state with `WM_PAINT` and another message pending. -/
theorem loop_one_message_per_pass_witness :
    twoPending.queue = [.WM_PAINT, .other 512] ∧ Msg.WM_PAINT ≠ Msg.WM_QUIT ∧
    ∃ s' posted handled, loopBody twoPending = .next s' ∧
      s'.queue = [.other 512] ++ posted ∧
      s'.trace = twoPending.trace ++
          [.PeekMessage, .TranslateMessage .WM_PAINT, .DispatchMessage .WM_PAINT]
          ++ handled ++ [.StretchDIBits twoPending.fb] :=
  ⟨rfl, by decide,
    (loop_one_message_per_pass twoPending).2.2 .WM_PAINT [.other 512] rfl (by decide)⟩

/-- C7, counterexample to the claim as stated: with `WM_PAINT` and a second
message pending, one pass dispatches `WM_PAINT` only and blits (once in the
window procedure, once in the loop body) while the second message, which was
pending when the pass began, is still in the queue. -/
theorem loop_blits_with_pending_message :
    Msg.other 512 ∈ twoPending.queue ∧
    Msg.other 512 ∈ (loopBody twoPending).state.queue ∧
    (loopBody twoPending).state.queue = [.other 512] ∧
    (loopBody twoPending).state.trace.map WinCall.isBlit
      = [false, false, false, false, true, false, true] := by
  decide

end Renderer
